import Mathlib

/-!
Verification development for the blast-radius discovery engine.

The Go sources are embedded shallowly: pure functions become Lean functions,
AWS API calls become oracle parameters (functions supplied to the embedded
code), and the shared mutable graph becomes explicit state passing.  Field
and function names follow the Go source (`internal/graph/types.go`,
`internal/graph/bfs.go`, `internal/discover/discover.go`, the ELB/ECS,
Lambda, RDS and Route53 discovery files).

Go's `strings` helpers are re-implemented structurally over `List Char`
(every separator the embedded code splits on is a single character), so all
definitions evaluate by kernel reduction.
-/

namespace BlastRadius

/-- Split a character list at every occurrence of `sep`; always returns at
least one piece (Go `strings.Split` semantics for a one-character
separator). -/
def splitChars (sep : Char) : List Char → List (List Char)
  | [] => [[]]
  | c :: cs =>
      let r := splitChars sep cs
      if c == sep then [] :: r
      else (c :: r.headD []) :: r.tail

/-- Go `strings.Split(s, sep)` for a one-character separator. -/
def goSplit (s : String) (sep : Char) : List String :=
  (splitChars sep s.data).map String.mk

/-- Whether `pre` is a prefix of the character list `l`. -/
def listIsPre : List Char → List Char → Bool
  | [], _ => true
  | _ :: _, [] => false
  | p :: ps, c :: cs => p == c && listIsPre ps cs

/-- Go `strings.HasPrefix`. -/
def goHasPre (s pre : String) : Bool :=
  listIsPre pre.data s.data

/-- Go `strings.TrimPrefix`: drop `pre` when it leads `s`, else `s`. -/
def goTrimPre (s pre : String) : String :=
  if goHasPre s pre then String.mk (s.data.drop pre.data.length) else s

/-- Go `strings.HasSuffix`. -/
def goHasSuf (s suf : String) : Bool :=
  listIsPre suf.data.reverse s.data.reverse

/-- Go `strings.TrimSuffix`. -/
def goTrimSuf (s suf : String) : String :=
  if goHasSuf s suf then String.mk ((s.data.reverse.drop suf.data.length).reverse) else s

/-- Go `strings.Contains(s, sep)` for a one-character `sep`: at least two
split pieces. -/
def goContains (s : String) (sep : Char) : Bool :=
  (goSplit s sep).length ≥ 2

/-- Go `strings.Join(parts, sep)` for a one-character separator. -/
def goJoin (sep : Char) : List String → String
  | [] => ""
  | [s] => s
  | s :: rest => s ++ String.mk [sep] ++ goJoin sep rest

/-- Values stored in node metadata and edge-evidence field maps.  The Go code
stores arbitrary `any` values; the variants below cover the shapes the
embedded code actually stores, with `other` standing for structured values
that no verified property inspects. -/
inductive AttrVal where
  | str (v : String)
  | ostr (v : Option String)
  | obool (v : Option Bool)
  | oint (v : Option Int)
  | strs (v : List String)
  | other
deriving Repr, DecidableEq

/-- `graph.Node` from internal/graph/types.go.  Defaults mirror Go zero
values (empty strings, empty maps). -/
structure Node where
  id : String
  type : String := ""
  arn : String := ""
  name : String := ""
  region : String := ""
  account : String := ""
  tags : List (String × String) := []
  metadata : List (String × AttrVal) := []
deriving Repr, DecidableEq

/-- `graph.Evidence` from internal/graph/types.go.  The Go zero value of
`Heuristic` is `false`, so edge literals that omit it get `false` here via
the field default. -/
structure Evidence where
  apiCall : String := ""
  fields : List (String × AttrVal) := []
  heuristic : Bool := false
deriving Repr, DecidableEq

/-- `graph.Edge` from internal/graph/types.go (`From`/`To` are rendered as
`fromId`/`toId` because `from` is a Lean keyword). -/
structure Edge where
  fromId : String
  toId : String
  relationType : String := ""
  evidence : Evidence := {}
deriving Repr, DecidableEq

/-- `graph.Graph`: a node map keyed by id and an append-only edge list.  The
Go map is embedded as a list of nodes that `addNode` keeps unique by id
(inserting an existing id replaces the record in place). -/
structure Graph where
  nodes : List Node := []
  edges : List Edge := []
deriving Repr, DecidableEq

/-- `graph.New()`. -/
def Graph.new : Graph := {}

/-- `Graph.AddNode`: map assignment `g.nodes[node.ID] = node` — replaces the
record when the id is present, otherwise appends. -/
def Graph.addNode (g : Graph) (node : Node) : Graph :=
  if g.nodes.any (fun m => m.id == node.id) then
    { g with nodes := g.nodes.map (fun m => if m.id == node.id then node else m) }
  else
    { g with nodes := g.nodes ++ [node] }

/-- `Graph.AddEdge`: append to the edge list. -/
def Graph.addEdge (g : Graph) (edge : Edge) : Graph :=
  { g with edges := g.edges ++ [edge] }

/-- `Graph.GetNode`. -/
def Graph.getNode (g : Graph) (id : String) : Option Node :=
  g.nodes.find? (fun m => m.id == id)

/-- `Graph.HasNode`. -/
def Graph.hasNode (g : Graph) (id : String) : Bool :=
  g.nodes.any (fun m => m.id == id)

/-- `Graph.NodeCount` (`len(g.nodes)` on the map = number of distinct ids). -/
def Graph.nodeCount (g : Graph) : Nat := g.nodes.length

/-- `Graph.EdgeCount`. -/
def Graph.edgeCount (g : Graph) : Nat := g.edges.length

/-- `Discoverer.parseARN` from internal/discover/discover.go.  Splits on
`:`; fewer than 6 segments is an error; otherwise a node is built with
`ID = ARN = input` and the service segment is classified by the same
if-chain as the Go `switch`. -/
def parseARN (arn : String) : Except String Node :=
  let parts := goSplit arn ':'
  if parts.length < 6 then
    .error ("invalid ARN format: " ++ arn)
  else
    let service := parts.getD 2 ""
    let region := parts.getD 3 ""
    let account := parts.getD 4 ""
    let resource := goJoin ':' (parts.drop 5)
    let node : Node := { id := arn, arn := arn, region := region, account := account }
    if service == "elasticloadbalancing" then
      let node := { node with type := "LoadBalancer" }
      if goContains resource '/' then
        let rparts := goSplit resource '/'
        if rparts.length ≥ 2 then
          .ok { node with name := rparts.getD (rparts.length - 2) "" }
        else .ok node
      else .ok node
    else if service == "ecs" then
      if goHasPre resource "service/" then
        let node := { node with type := "ECSService" }
        let rparts := goSplit resource '/'
        if rparts.length ≥ 3 then
          .ok { node with
                  name := rparts.getD (rparts.length - 1) "",
                  metadata := [("cluster", AttrVal.str (rparts.getD 1 ""))] }
        else .ok node
      else .ok node
    else if service == "lambda" then
      let node := { node with type := "Lambda" }
      if goHasPre resource "function:" then
        .ok { node with name := goTrimPre resource "function:" }
      else .ok node
    else if service == "rds" then
      if goHasPre resource "db:" then
        .ok { node with type := "RDSInstance", name := goTrimPre resource "db:" }
      else if goHasPre resource "cluster:" then
        .ok { node with type := "RDSCluster", name := goTrimPre resource "cluster:" }
      else .ok node
    else
      .error ("unsupported service in ARN: " ++ service)

/-- The services `parseARN`'s switch recognises. -/
def supportedService (s : String) : Bool :=
  s == "elasticloadbalancing" || s == "ecs" || s == "lambda" || s == "rds"

/-- The name-based resolution methods `identifyResource` tries for non-ARN
input, as oracles standing for the live AWS lookups
(`resolveLoadBalancerByName`, `resolveECSService`, `resolveLambdaFunction`,
`resolveRDSInstance`). -/
structure Resolvers where
  resolveLoadBalancerByName : String → Except String Node
  resolveECSService : String → String → Except String Node
  resolveLambdaFunction : String → Except String Node
  resolveRDSInstance : String → Except String Node

/-- `Discoverer.identifyResource`: ARN input is parsed offline; otherwise
the friendly-name lookups run in the source's fixed order, each taken when
it returns without error. -/
def identifyResource (r : Resolvers) (resourceID : String) : Except String Node :=
  if goHasPre resourceID "arn:" then
    parseARN resourceID
  else
    match r.resolveLoadBalancerByName resourceID with
    | .ok node => .ok node
    | .error _ =>
      let ecsTry : Option Node :=
        if goContains resourceID '/' then
          let parts := goSplit resourceID '/'
          if parts.length = 2 then
            match r.resolveECSService (parts.getD 0 "") (parts.getD 1 "") with
            | .ok node => some node
            | .error _ => none
          else none
        else none
      match ecsTry with
      | some node => .ok node
      | none =>
        match r.resolveLambdaFunction resourceID with
        | .ok node => .ok node
        | .error _ =>
          match r.resolveRDSInstance resourceID with
          | .ok node => .ok node
          | .error _ => .error ("unable to identify resource: " ++ resourceID)

/-- One per-type expander invocation: it receives the dequeued node and the
shared graph, and returns the mutated graph, the neighbor ids it found, and
whether it reported an error (the orchestrator only logs the error). -/
def Expander : Type :=
  Node → Graph → Graph × List String × Bool

/-- The per-type expanders `discoverNode` dispatches to, as oracles. -/
structure Expanders where
  discoverLoadBalancer : Expander
  discoverECSService : Expander
  discoverLambda : Expander
  discoverRDS : Expander

/-- `Discoverer.discoverNode`: the type-tag switch.  An unmatched type is a
no-op: `nil` neighbors, no error, graph untouched. -/
def discoverNode (e : Expanders) (node : Node) (g : Graph) : Graph × List String × Bool :=
  if node.type == "LoadBalancer" then e.discoverLoadBalancer node g
  else if node.type == "ECSService" then e.discoverECSService node g
  else if node.type == "Lambda" then e.discoverLambda node g
  else if node.type == "RDSInstance" || node.type == "RDSCluster" then e.discoverRDS node g
  else (g, [], false)

/-- `discover.Options` (Go `int` fields become `Int`). -/
structure Options where
  maxDepth : Int
  maxNodes : Int
  heuristics : List String := []

/-- The neighbor-enqueue loop at the bottom of `Discover`'s level body:
each returned neighbor not yet visited is marked visited and appended to
the queue. -/
def enqueueNeighbors : List String → List String → List String → List String × List String
  | [], queue, visited => (queue, visited)
  | n :: ns, queue, visited =>
      if visited.contains n then enqueueNeighbors ns queue visited
      else enqueueNeighbors ns (queue ++ [n]) (n :: visited)

/-- The inner `for i := 0; i < levelSize; i++` loop of `Discover`: `fuel` is
the remaining iteration count (the snapshotted level size).  Each iteration
first performs the node-cap check (halting the whole traversal when
`NodeCount >= MaxNodes`), then pops the queue head, skips ids missing from
the graph, and otherwise expands and enqueues.  The `Bool` result records
whether the cap check fired. -/
def runLevel (expand : Expander) (maxNodes : Int) :
    Nat → Graph → List String → List String → Graph × List String × List String × Bool
  | 0, g, queue, visited => (g, queue, visited, false)
  | fuel + 1, g, queue, visited =>
      if maxNodes ≤ (g.nodeCount : Int) then
        (g, queue, visited, true)
      else
        match queue with
        | [] => (g, [], visited, false)
        | nodeID :: rest =>
            match g.getNode nodeID with
            | none => runLevel expand maxNodes fuel g rest visited
            | some node =>
                let r := expand node g
                let qv := enqueueNeighbors r.2.1 rest visited
                runLevel expand maxNodes fuel r.1 qv.1 qv.2

/-- The outer `for len(queue) > 0 && currentDepth <= d.opts.MaxDepth` loop
of `Discover`.  `fuel` counts the remaining admissible depths
(`maxDepth + 1 - currentDepth`, clamped at zero), which is exact because
`currentDepth` increments once per iteration. -/
def discoverLoop (expand : Expander) (maxNodes : Int) :
    Nat → Graph → List String → List String → Graph
  | 0, g, _, _ => g
  | fuel + 1, g, queue, visited =>
      if queue.isEmpty then g
      else
        let r := runLevel expand maxNodes queue.length g queue visited
        if r.2.2.2 then r.1
        else discoverLoop expand maxNodes fuel r.1 r.2.1 r.2.2.1

/-- `Discoverer.Discover`: identify the root (hard failure aborts the run),
seed the graph/queue/visited set, then run the level-synchronous BFS.  The
expansion step is the `discoverNode` dispatch applied to the `Expanders`
oracle. -/
def Discover (e : Expanders) (r : Resolvers) (opts : Options) (resourceID : String)
    (g : Graph) : Except String Graph :=
  match identifyResource r resourceID with
  | .error err => .error ("failed to identify resource: " ++ err)
  | .ok startNode =>
      let g := g.addNode startNode
      .ok (discoverLoop (discoverNode e) opts.maxNodes
            ((opts.maxDepth + 1).toNat) g [startNode.id] [startNode.id])

/-- Every successful `parseARN` result carries the input ARN as both its id
and its ARN field: the node literal is built with `ID: arn, ARN: arn` before
the service switch, and the switch only refines type/name/metadata. -/
theorem parseARN_ok_id (arn : String) (n : Node) (h : parseARN arn = .ok n) :
    n.id = arn ∧ n.arn = arn := by
  simp only [parseARN] at h
  repeat' split at h
  all_goals
    first
      | exact Except.noConfusion h
      | (injection h with h2; subst h2; exact ⟨rfl, rfl⟩)

/-- On input with the `arn:` prefix, `identifyResource` is exactly
`parseARN`: no resolver oracle is consulted. -/
theorem identifyResource_arn (r : Resolvers) (s : String)
    (h : goHasPre s "arn:" = true) : identifyResource r s = parseARN s := by
  simp only [identifyResource, h, if_true]

/-- `parseARN` fails exactly on fewer than 6 colon segments or an
unsupported service segment. -/
theorem parseARN_isOk_iff (s : String) :
    (parseARN s).isOk = false ↔
      ((goSplit s ':').length < 6 ∨
        supportedService ((goSplit s ':').getD 2 "") = false) := by
  simp only [parseARN]
  repeat' split
  all_goals simp_all [supportedService, Except.isOk, Except.toBool]

/-- C3: for every valid fully-qualified identifier (ARN) of a supported
service, identification parses it without any network call (the resolver
oracles are never consulted) and returns a node whose ARN field and id
equal the input exactly; the concrete Lambda ARN of the spec yields the
function type tag, region, account and name stated there. -/
theorem C3_identifier_roundtrip :
    (∀ (arn : String) (n : Node), parseARN arn = .ok n → n.id = arn ∧ n.arn = arn)
    ∧ (∀ (r : Resolvers) (s : String), goHasPre s "arn:" = true →
        identifyResource r s = parseARN s)
    ∧ parseARN "arn:aws:lambda:us-east-1:111111111111:function:my-fn" =
        .ok { id := "arn:aws:lambda:us-east-1:111111111111:function:my-fn",
              type := "Lambda",
              arn := "arn:aws:lambda:us-east-1:111111111111:function:my-fn",
              name := "my-fn", region := "us-east-1", account := "111111111111" } :=
  ⟨parseARN_ok_id, identifyResource_arn, by rfl⟩

/-- A resolver oracle in which every friendly-name lookup fails, mirroring
the `not implemented yet` placeholders of discover.go; used to instantiate
universally quantified theorems at a concrete input. -/
def failResolvers : Resolvers where
  resolveLoadBalancerByName := fun _ => .error "not implemented yet"
  resolveECSService := fun _ _ => .error "not implemented yet"
  resolveLambdaFunction := fun _ => .error "not implemented yet"
  resolveRDSInstance := fun _ => .error "not implemented yet"

/-- Witness for C3 at the spec's concrete Lambda ARN. -/
theorem C3_identifier_roundtrip_witness :
    (identifyResource failResolvers "arn:aws:lambda:us-east-1:111111111111:function:my-fn"
      = parseARN "arn:aws:lambda:us-east-1:111111111111:function:my-fn")
    ∧ ({ id := "arn:aws:lambda:us-east-1:111111111111:function:my-fn",
         type := "Lambda",
         arn := "arn:aws:lambda:us-east-1:111111111111:function:my-fn",
         name := "my-fn", region := "us-east-1", account := "111111111111" : Node }.id
        = "arn:aws:lambda:us-east-1:111111111111:function:my-fn") :=
  ⟨C3_identifier_roundtrip.2.1 failResolvers _ (by rfl),
   (C3_identifier_roundtrip.1 _ _ C3_identifier_roundtrip.2.2).1⟩

/-- C4: for input beginning with the ARN prefix, identification fails (the
InvalidIdentifier outcome) exactly when the string has fewer than 6 colon
segments or its service segment is unsupported; the spec's S3 ARN is a
concrete failing instance. -/
theorem C4_invalid_identifier :
    (∀ (r : Resolvers) (s : String), goHasPre s "arn:" = true →
       ((identifyResource r s).isOk = false ↔
         ((goSplit s ':').length < 6 ∨
           supportedService ((goSplit s ':').getD 2 "") = false)))
    ∧ (∀ r : Resolvers,
        (identifyResource r "arn:aws:s3:us-east-1:111111111111:bucket/my-bucket").isOk
          = false) := by
  constructor
  · intro r s h
    rw [identifyResource_arn r s h]
    exact parseARN_isOk_iff s
  · intro r
    rw [identifyResource_arn r _ (by rfl)]
    rfl

/-- Witness for C4 at the spec's concrete S3 ARN. -/
theorem C4_invalid_identifier_witness :
    (identifyResource failResolvers "arn:aws:s3:us-east-1:111111111111:bucket/my-bucket").isOk
        = false
    ∧ ((identifyResource failResolvers "arn:aws:s3:us-east-1:111111111111:bucket/my-bucket").isOk
          = false ↔
        ((goSplit "arn:aws:s3:us-east-1:111111111111:bucket/my-bucket" ':').length < 6 ∨
          supportedService
            ((goSplit "arn:aws:s3:us-east-1:111111111111:bucket/my-bucket" ':').getD 2 "")
            = false)) :=
  ⟨C4_invalid_identifier.2 failResolvers,
   C4_invalid_identifier.1 failResolvers _ (by rfl)⟩

/-- C10: some ARNs of supported services parse without error into a node
whose type tag is the empty string — an ECS ARN whose resource is not
`service/...` and an RDS ARN whose resource starts with neither `db:` nor
`cluster:` — and the traversal dispatch treats an untyped node as a no-op:
graph untouched, zero neighbors, no error, regardless of the expanders. -/
theorem C10_untyped_node_noop :
    (∃ n : Node,
        parseARN "arn:aws:ecs:us-east-1:123456789012:task/my-cluster/abc123" = .ok n
        ∧ n.type = "")
    ∧ (∃ n : Node,
        parseARN "arn:aws:rds:us-east-1:123456789012:og:my-optiongroup" = .ok n
        ∧ n.type = "")
    ∧ (∀ (e : Expanders) (n : Node) (g : Graph), n.type = "" →
        discoverNode e n g = (g, [], false)) := by
  refine ⟨⟨_, by rfl, rfl⟩, ⟨_, by rfl, rfl⟩, ?_⟩
  intro e n g h
  unfold discoverNode
  rw [h]
  rfl

/-- Witness for C10's dispatch clause at a concrete untyped node. -/
theorem C10_untyped_node_noop_witness :
    discoverNode
        ⟨fun _ g => (g, ["x"], true), fun _ g => (g, ["x"], true),
         fun _ g => (g, ["x"], true), fun _ g => (g, ["x"], true)⟩
        { id := "arn:aws:ecs:us-east-1:123456789012:task/my-cluster/abc123" }
        Graph.new
      = (Graph.new, [], false) :=
  C10_untyped_node_noop.2.2 _ _ _ rfl

/-- C5: on non-ARN input the lookups run in the fixed order load balancer,
then cluster/service (only when the string splits on `/` into exactly two
halves), then function name, then database instance; the first success
wins, and when every applicable method fails the call returns the NotFound
error. -/
theorem C5_friendly_name_order (r : Resolvers) (s : String)
    (hpre : goHasPre s "arn:" = false) :
    (∀ n, r.resolveLoadBalancerByName s = .ok n → identifyResource r s = .ok n)
    ∧ (∀ e n, r.resolveLoadBalancerByName s = .error e →
        (goSplit s '/').length = 2 →
        r.resolveECSService ((goSplit s '/').getD 0 "") ((goSplit s '/').getD 1 "") = .ok n →
        identifyResource r s = .ok n)
    ∧ (∀ e n, r.resolveLoadBalancerByName s = .error e →
        ((goSplit s '/').length = 2 →
          (r.resolveECSService ((goSplit s '/').getD 0 "")
            ((goSplit s '/').getD 1 "")).isOk = false) →
        r.resolveLambdaFunction s = .ok n →
        identifyResource r s = .ok n)
    ∧ (∀ e e2 n, r.resolveLoadBalancerByName s = .error e →
        ((goSplit s '/').length = 2 →
          (r.resolveECSService ((goSplit s '/').getD 0 "")
            ((goSplit s '/').getD 1 "")).isOk = false) →
        r.resolveLambdaFunction s = .error e2 →
        r.resolveRDSInstance s = .ok n →
        identifyResource r s = .ok n)
    ∧ ((r.resolveLoadBalancerByName s).isOk = false →
        ((goSplit s '/').length = 2 →
          (r.resolveECSService ((goSplit s '/').getD 0 "")
            ((goSplit s '/').getD 1 "")).isOk = false) →
        (r.resolveLambdaFunction s).isOk = false →
        (r.resolveRDSInstance s).isOk = false →
        (identifyResource r s).isOk = false) := by
  refine ⟨?_, ?_, ?_, ?_, ?_⟩
  · intro n hlb
    simp only [identifyResource, hpre, Bool.false_eq_true, if_false, hlb]
  · intro e n hlb hlen hecs
    have hcont : goContains s '/' = true := by
      simp [goContains, hlen]
    simp only [identifyResource, hpre, Bool.false_eq_true, if_false, hlb, hcont, if_true,
      hlen, hecs]
  · intro e n hlb hecs hlam
    simp only [identifyResource, hpre, Bool.false_eq_true, if_false, hlb]
    by_cases h2 : (goSplit s '/').length = 2
    · have h3 := hecs h2
      cases h4 : r.resolveECSService ((goSplit s '/').getD 0 "") ((goSplit s '/').getD 1 "") with
      | ok v => rw [h4] at h3; simp [Except.isOk, Except.toBool] at h3
      | error e2 => simp [h4, h2, hlam]
    · have hsplit := h2
      by_cases hcont : goContains s '/' = true
      · simp only [hcont, if_true, if_neg h2, hlam]
      · simp only [Bool.not_eq_true] at hcont
        simp only [hcont, Bool.false_eq_true, if_false, hlam]
  · intro e e2 n hlb hecs hlam hrds
    simp only [identifyResource, hpre, Bool.false_eq_true, if_false, hlb]
    by_cases h2 : (goSplit s '/').length = 2
    · have h3 := hecs h2
      cases h4 : r.resolveECSService ((goSplit s '/').getD 0 "") ((goSplit s '/').getD 1 "") with
      | ok v => rw [h4] at h3; simp [Except.isOk, Except.toBool] at h3
      | error e3 => simp [h4, h2, hlam, hrds]
    · by_cases hcont : goContains s '/' = true
      · simp only [hcont, if_true, if_neg h2, hlam, hrds]
      · simp only [Bool.not_eq_true] at hcont
        simp only [hcont, Bool.false_eq_true, if_false, hlam, hrds]
  · intro hlb hecs hlam hrds
    simp only [identifyResource, hpre, Bool.false_eq_true, if_false]
    cases h1 : r.resolveLoadBalancerByName s with
    | ok v => rw [h1] at hlb; simp [Except.isOk, Except.toBool] at hlb
    | error e1 =>
      cases h5 : r.resolveLambdaFunction s with
      | ok v => rw [h5] at hlam; simp [Except.isOk, Except.toBool] at hlam
      | error e5 =>
        cases h6 : r.resolveRDSInstance s with
        | ok v => rw [h6] at hrds; simp [Except.isOk, Except.toBool] at hrds
        | error e6 =>
          by_cases h2 : (goSplit s '/').length = 2
          · have h3 := hecs h2
            cases h4 : r.resolveECSService ((goSplit s '/').getD 0 "")
                ((goSplit s '/').getD 1 "") with
            | ok v => rw [h4] at h3; simp [Except.isOk, Except.toBool] at h3
            | error e4 => simp [h4, h2, Except.isOk, Except.toBool]
          · by_cases hcont : goContains s '/' = true
            · simp [hcont, if_neg h2, Except.isOk, Except.toBool]
            · simp only [Bool.not_eq_true] at hcont
              simp [hcont, Except.isOk, Except.toBool]

/-- Witness for C5: with all four lookups failing on a non-ARN input, the
call fails with the NotFound outcome. -/
theorem C5_friendly_name_order_witness :
    (identifyResource failResolvers "my-load-balancer").isOk = false :=
  (C5_friendly_name_order failResolvers "my-load-balancer" (by rfl)).2.2.2.2
    (by rfl) (fun _ => by rfl) (by rfl) (by rfl)

/-- Expanders that discover nothing; used to instantiate orchestrator
theorems at concrete inputs. -/
def noopExpanders : Expanders where
  discoverLoadBalancer := fun _ g => (g, [], false)
  discoverECSService := fun _ g => (g, [], false)
  discoverLambda := fun _ g => (g, [], false)
  discoverRDS := fun _ g => (g, [], false)

/-- C2: with maxNodes = 1, the traversal stops at the first per-dequeued
node check — immediately after the seed node is added and counted — and
returns a graph holding exactly the seed node and no edges, for every
expander oracle and every maxDepth. -/
theorem C2_maxNodes_one (e : Expanders) (r : Resolvers) (maxDepth : Int)
    (resourceID : String) (n : Node)
    (hid : identifyResource r resourceID = .ok n) :
    Discover e r { maxDepth := maxDepth, maxNodes := 1 } resourceID Graph.new
      = .ok { nodes := [n], edges := [] } := by
  unfold Discover
  rw [hid]
  have hseed : Graph.new.addNode n = { nodes := [n], edges := [] } := by
    simp [Graph.new, Graph.addNode]
  dsimp only
  rw [hseed]
  cases hfuel : (maxDepth + 1).toNat with
  | zero => rfl
  | succ f =>
      simp [discoverLoop, runLevel, Graph.nodeCount]

/-- Witness for C2 at the spec's Lambda ARN with no-op expanders. -/
theorem C2_maxNodes_one_witness :
    Discover noopExpanders failResolvers { maxDepth := 7, maxNodes := 1 }
        "arn:aws:lambda:us-east-1:111111111111:function:my-fn" Graph.new
      = .ok { nodes :=
                [{ id := "arn:aws:lambda:us-east-1:111111111111:function:my-fn",
                   type := "Lambda",
                   arn := "arn:aws:lambda:us-east-1:111111111111:function:my-fn",
                   name := "my-fn", region := "us-east-1", account := "111111111111" }],
              edges := [] } :=
  C2_maxNodes_one noopExpanders failResolvers 7 _ _ (by rfl)

/-- The whole `runLevel` state evolution ignores the expander's error flag:
two expanders that agree on the mutated graph and the returned neighbor
list produce identical level results. -/
theorem runLevel_congr (ex1 ex2 : Expander)
    (h : ∀ n g, (ex1 n g).1 = (ex2 n g).1 ∧ (ex1 n g).2.1 = (ex2 n g).2.1) (maxNodes : Int) :
    ∀ (fuel : Nat) (g : Graph) (queue visited : List String),
      runLevel ex1 maxNodes fuel g queue visited = runLevel ex2 maxNodes fuel g queue visited := by
  intro fuel
  induction fuel with
  | zero => intro g queue visited; rfl
  | succ f ih =>
      intro g queue visited
      unfold runLevel
      split
      · rfl
      · cases queue with
        | nil => rfl
        | cons nodeID rest =>
            dsimp only
            cases hg : g.getNode nodeID with
            | none => simp only [hg]; exact ih g rest visited
            | some node =>
                simp only [hg]
                rw [(h node g).1, (h node g).2]
                exact ih _ _ _

/-- `discoverLoop` likewise ignores the expander's error flag. -/
theorem discoverLoop_congr (ex1 ex2 : Expander)
    (h : ∀ n g, (ex1 n g).1 = (ex2 n g).1 ∧ (ex1 n g).2.1 = (ex2 n g).2.1) (maxNodes : Int) :
    ∀ (fuel : Nat) (g : Graph) (queue visited : List String),
      discoverLoop ex1 maxNodes fuel g queue visited
        = discoverLoop ex2 maxNodes fuel g queue visited := by
  intro fuel
  induction fuel with
  | zero => intro g queue visited; rfl
  | succ f ih =>
      intro g queue visited
      unfold discoverLoop
      split
      · rfl
      · rw [runLevel_congr ex1 ex2 h maxNodes queue.length g queue visited]
        dsimp only
        split
        · rfl
        · exact ih _ _ _

/-- C6: Discover returns a top-level error exactly when identification
fails; expander failures never abort the run — the traversal's entire
result (graph, enqueued neighbors, continuation) is unchanged if expander
error flags are altered arbitrarily, because the loop only logs them. -/
theorem C6_error_propagation :
    (∀ (e : Expanders) (r : Resolvers) (opts : Options) (rid : String) (g : Graph),
        (Discover e r opts rid g).isOk = (identifyResource r rid).isOk)
    ∧ (∀ (e1 e2 : Expanders),
        (∀ n g, (discoverNode e1 n g).1 = (discoverNode e2 n g).1
              ∧ (discoverNode e1 n g).2.1 = (discoverNode e2 n g).2.1) →
        ∀ (r : Resolvers) (opts : Options) (rid : String) (g : Graph),
          Discover e1 r opts rid g = Discover e2 r opts rid g) := by
  constructor
  · intro e r opts rid g
    unfold Discover
    cases identifyResource r rid with
    | ok n => rfl
    | error err => rfl
  · intro e1 e2 h r opts rid g
    unfold Discover
    cases identifyResource r rid with
    | ok n =>
        simp only
        rw [discoverLoop_congr (discoverNode e1) (discoverNode e2) h]
    | error err => rfl

/-- An expander oracle identical to `noopExpanders` except that every
expansion also reports an error; used to witness C6's invariance clause. -/
def failingExpanders : Expanders where
  discoverLoadBalancer := fun _ g => (g, [], true)
  discoverECSService := fun _ g => (g, [], true)
  discoverLambda := fun _ g => (g, [], true)
  discoverRDS := fun _ g => (g, [], true)

/-- Witness for C6: a run whose expanders all fail produces exactly the
run of the error-free expanders, and success is identification success. -/
theorem C6_error_propagation_witness :
    Discover failingExpanders failResolvers { maxDepth := 2, maxNodes := 250 }
        "arn:aws:lambda:us-east-1:111111111111:function:my-fn" Graph.new
      = Discover noopExpanders failResolvers { maxDepth := 2, maxNodes := 250 }
        "arn:aws:lambda:us-east-1:111111111111:function:my-fn" Graph.new
    ∧ (Discover failingExpanders failResolvers { maxDepth := 2, maxNodes := 250 }
        "arn:aws:lambda:us-east-1:111111111111:function:my-fn" Graph.new).isOk
      = (identifyResource failResolvers
          "arn:aws:lambda:us-east-1:111111111111:function:my-fn").isOk :=
  ⟨C6_error_propagation.2 failingExpanders noopExpanders
      (fun n g => by
        constructor
        · unfold discoverNode
          repeat' split
          all_goals rfl
        · unfold discoverNode
          repeat' split
          all_goals rfl) failResolvers _ _ _,
   C6_error_propagation.1 failingExpanders failResolvers _ _ _⟩

/-- An expander oracle shaped like `discoverECSService`'s unconditional
part: expanding the seeded ECS service adds its cluster node and one
security-group node (with their edges) in a single expansion. -/
def twoNodeExpanders : Expanders where
  discoverLoadBalancer := fun _ g => (g, [], false)
  discoverECSService := fun node g =>
    let clusterNode : Node := { id := "my-cluster", type := "ECSCluster", name := "my-cluster" }
    let g := g.addNode clusterNode
    let g := g.addEdge { fromId := node.id, toId := clusterNode.id, relationType := "runs-in",
                         evidence := { apiCall := "DescribeServices" } }
    let sgNode : Node := { id := "sg-1", type := "SecurityGroup", name := "sg-1" }
    let g := g.addNode sgNode
    let g := g.addEdge { fromId := node.id, toId := sgNode.id,
                         relationType := "uses-security-group",
                         evidence := { apiCall := "DescribeServices" } }
    (g, [clusterNode.id, sgNode.id], false)
  discoverLambda := fun _ g => (g, [], false)
  discoverRDS := fun _ g => (g, [], false)

/-- Counterexample to C1 as stated: with maxNodes = 2, a run whose single
expansion adds two neighbor nodes finishes with nodeCount = 3 > 2, because
the cap is only checked before each dequeued node, not during an
expansion. -/
theorem C1_cap_counterexample :
    ((Discover twoNodeExpanders failResolvers { maxDepth := 2, maxNodes := 2 }
        "arn:aws:ecs:us-east-1:123456789012:service/my-cluster/my-service"
        Graph.new).toOption.map Graph.nodeCount) = some 3
    ∧ ¬ (3 ≤ 2) := by
  constructor
  · rfl
  · decide

/-- `runLevel` keeps any node-count bound `C` that leaves room for one more
expansion: if the count is below the cap a single expansion adds at most
`m` nodes, staying `≤ K - 1 + m ≤ C`; once the cap check fires the count
is frozen. -/
theorem runLevel_nodeCount_le (ex : Expander) (K m C : Int)
    (hm : ∀ n g, ((ex n g).1.nodeCount : Int) ≤ (g.nodeCount : Int) + m)
    (hC : K - 1 + m ≤ C) :
    ∀ (fuel : Nat) (g : Graph) (q v : List String),
      (g.nodeCount : Int) ≤ C →
      (((runLevel ex K fuel g q v).1.nodeCount : Int)) ≤ C := by
  intro fuel
  induction fuel with
  | zero => intro g q v h; exact h
  | succ f ih =>
      intro g q v h
      unfold runLevel
      split
      · exact h
      · rename_i hlt
        cases q with
        | nil => exact h
        | cons nid rest =>
            dsimp only
            cases hg : g.getNode nid with
            | none => simp only [hg]; exact ih g rest v h
            | some node =>
                simp only [hg]
                exact ih _ _ _ (le_trans (hm node g) (by omega))

/-- `discoverLoop` keeps the same node-count bound. -/
theorem discoverLoop_nodeCount_le (ex : Expander) (K m C : Int)
    (hm : ∀ n g, ((ex n g).1.nodeCount : Int) ≤ (g.nodeCount : Int) + m)
    (hC : K - 1 + m ≤ C) :
    ∀ (fuel : Nat) (g : Graph) (q v : List String),
      (g.nodeCount : Int) ≤ C →
      (((discoverLoop ex K fuel g q v).nodeCount : Int)) ≤ C := by
  intro fuel
  induction fuel with
  | zero => intro g q v h; exact h
  | succ f ih =>
      intro g q v h
      unfold discoverLoop
      split
      · exact h
      · dsimp only
        split
        · exact runLevel_nodeCount_le ex K m C hm hC _ g q v h
        · exact ih _ _ _ (runLevel_nodeCount_le ex K m C hm hC _ g q v h)

/-- C1 amended: the per-dequeued-node check halts the whole traversal as
soon as it observes nodeCount ≥ maxNodes, but the check is not re-run
mid-expansion, so the final count is only bounded by maxNodes − 1 plus the
largest number of nodes one expansion adds (m); nodeCount ≤ maxNodes
itself fails (see the counterexample). -/
theorem C1_cap_amended (e : Expanders) (r : Resolvers) (opts : Options) (m : Int)
    (hm : ∀ n g, (((discoverNode e n g).1.nodeCount : Int))
            ≤ (g.nodeCount : Int) + m)
    (hK : 1 ≤ opts.maxNodes) (hm1 : 1 ≤ m) :
    (∀ (rid : String) (gOut : Graph),
        Discover e r opts rid Graph.new = .ok gOut →
        (gOut.nodeCount : Int) ≤ opts.maxNodes - 1 + m)
    ∧ (∀ (fuel : Nat) (g : Graph) (q v : List String),
        opts.maxNodes ≤ (g.nodeCount : Int) →
        runLevel (discoverNode e) opts.maxNodes (fuel + 1) g q v = (g, q, v, true)) := by
  constructor
  · intro rid gOut hrun
    unfold Discover at hrun
    cases hid : identifyResource r rid with
    | error err => rw [hid] at hrun; exact Except.noConfusion hrun
    | ok n =>
        rw [hid] at hrun
        dsimp only at hrun
        injection hrun with h2
        subst h2
        have hseed : ((Graph.new.addNode n).nodeCount : Int) ≤ opts.maxNodes - 1 + m := by
          have : (Graph.new.addNode n).nodeCount = 1 := by
            simp [Graph.new, Graph.addNode, Graph.nodeCount]
          rw [this]
          omega
        exact discoverLoop_nodeCount_le (discoverNode e) opts.maxNodes m
          (opts.maxNodes - 1 + m) hm (by omega) _ _ _ _ hseed
  · intro fuel g q v hge
    unfold runLevel
    simp [hge]

/-- Witness for C1's amended statement: a no-op-expander run (each
expansion adds m = 1 ≥ 0 nodes at most) stays within maxNodes - 1 + 1. -/
theorem C1_cap_amended_witness :
    ((Discover noopExpanders failResolvers { maxDepth := 2, maxNodes := 250 }
        "arn:aws:lambda:us-east-1:111111111111:function:my-fn" Graph.new).toOption.map
          (fun g => ((g.nodeCount : Int) ≤ 250 - 1 + 1 : Bool))) = some true := by
  cases hrun : Discover noopExpanders failResolvers { maxDepth := 2, maxNodes := 250 }
      "arn:aws:lambda:us-east-1:111111111111:function:my-fn" Graph.new with
  | error err => exact absurd hrun (by rw [show Discover noopExpanders failResolvers
      { maxDepth := 2, maxNodes := 250 }
      "arn:aws:lambda:us-east-1:111111111111:function:my-fn" Graph.new
      = .ok { nodes := [{ id := "arn:aws:lambda:us-east-1:111111111111:function:my-fn",
                          type := "Lambda",
                          arn := "arn:aws:lambda:us-east-1:111111111111:function:my-fn",
                          name := "my-fn", region := "us-east-1",
                          account := "111111111111" }], edges := [] } from rfl]; simp)
  | ok gOut =>
      have hb := (C1_cap_amended noopExpanders failResolvers
          { maxDepth := 2, maxNodes := 250 } 1
          (fun n g => by
            have : (discoverNode noopExpanders n g).1 = g := by
              unfold discoverNode
              repeat' split
              all_goals rfl
            rw [this]
            omega)
          (by decide) (by decide)).1 _ gOut hrun
      have hb2 : (gOut.nodeCount : Int) ≤ 250 := by simpa using hb
      simp [Except.toOption, decide_eq_true_eq]
      omega

/-- `rdstypes.Endpoint`: the fields the RDS discovery code reads. -/
structure RDSEndpoint where
  address : Option String
  port : Option Int
deriving Repr, DecidableEq

/-- `rdstypes.AvailabilityZone` as used for a subnet's zone. -/
structure DBSubnetAZ where
  name : Option String
deriving Repr, DecidableEq

/-- `rdstypes.Subnet`. -/
structure DBSubnet where
  subnetIdentifier : Option String
  subnetAvailabilityZone : Option DBSubnetAZ
deriving Repr, DecidableEq

/-- `rdstypes.DBSubnetGroup`. -/
structure DBSubnetGroupData where
  dbSubnetGroupName : Option String
  vpcId : Option String
  dbSubnetGroupDescription : Option String
  subnets : List DBSubnet
deriving Repr, DecidableEq

/-- `rdstypes.VpcSecurityGroupMembership`. -/
structure VpcSecurityGroupMembership where
  vpcSecurityGroupId : Option String
  status : Option String
deriving Repr, DecidableEq

/-- `rdstypes.DBParameterGroupStatus`. -/
structure DBParameterGroupStatus where
  dbParameterGroupName : Option String
  parameterApplyStatus : Option String
deriving Repr, DecidableEq

/-- `rdstypes.DBInstance`: the fields `discoverRDSInstance` reads. -/
structure DBInstanceData where
  dbSubnetGroup : Option DBSubnetGroupData
  vpcSecurityGroups : List VpcSecurityGroupMembership
  dbParameterGroups : List DBParameterGroupStatus
  dbClusterIdentifier : Option String
  endpoint : Option RDSEndpoint
deriving Repr, DecidableEq

/-- `rdstypes.DBClusterMember`. -/
structure DBClusterMember where
  dbInstanceIdentifier : Option String
  isClusterWriter : Option Bool
deriving Repr, DecidableEq

/-- `rdstypes.DBCluster`: the fields `discoverRDSCluster` reads. -/
structure DBClusterData where
  dbClusterMembers : List DBClusterMember
  dbSubnetGroup : Option String
  vpcSecurityGroups : List VpcSecurityGroupMembership
  dbClusterParameterGroup : Option String
  endpoint : Option String
deriving Repr, DecidableEq

/-- The RDS client calls used by the expanders, as oracles returning the
fully drained responses (`DescribeDBInstances` / `DescribeDBClusters` keyed
by the identifier the code passes). -/
structure RDSApi where
  describeDBInstances : String → Except String (List DBInstanceData)
  describeDBClusters : String → Except String (List DBClusterData)

/-- `Discoverer.hasHeuristic`: linear scan of `opts.Heuristics` by string
equality. -/
def hasHeuristic (opts : Options) (name : String) : Bool :=
  opts.heuristics.any (fun h => h == name)

/-- The type of the heuristic upstream resolver
(`discoverRDSUpstream`-shaped): endpoint, store node, graph to mutate. -/
def UpstreamFn : Type :=
  String → Node → Graph → Except String (Graph × List String)

/-- `Discoverer.discoverRDSUpstream`: the source is an explicit stub — it
logs and returns an empty neighbor list without touching the graph. -/
def discoverRDSUpstream : UpstreamFn :=
  fun _ _ g => .ok (g, [])

/-- The `for ... instance.DBSubnetGroup.Subnets` loop of
`discoverRDSInstance`: one Subnet node plus one `contains` edge from the
subnet-group node per subnet that has an identifier. -/
def rdsInstanceSubnets (node : Node) (subnetGroupNodeId : String) :
    List DBSubnet → Graph → List String → Graph × List String
  | [], g, neighbors => (g, neighbors)
  | subnet :: rest, g, neighbors =>
      match subnet.subnetIdentifier with
      | none => rdsInstanceSubnets node subnetGroupNodeId rest g neighbors
      | some sid =>
          let subnetNode : Node :=
            { id := sid, type := "Subnet", name := sid,
              region := node.region, account := node.account,
              metadata :=
                match subnet.subnetAvailabilityZone with
                | some az =>
                    match az.name with
                    | some aname => [("availabilityZone", AttrVal.str aname)]
                    | none => []
                | none => [] }
          let g := g.addNode subnetNode
          let g := g.addEdge
            { fromId := subnetGroupNodeId, toId := subnetNode.id,
              relationType := "contains",
              evidence := { apiCall := "DescribeDBInstances",
                            fields := [("SubnetIdentifier", AttrVal.str sid)] } }
          rdsInstanceSubnets node subnetGroupNodeId rest g (neighbors ++ [subnetNode.id])

/-- The `for ... VpcSecurityGroups` loops of `discoverRDSInstance` and
`discoverRDSCluster` (textually identical in the source except for the
evidence's API-call name, passed here as `apiCall`). -/
def rdsSecurityGroups (node : Node) (apiCall : String) :
    List VpcSecurityGroupMembership → Graph → List String → Graph × List String
  | [], g, neighbors => (g, neighbors)
  | sg :: rest, g, neighbors =>
      match sg.vpcSecurityGroupId with
      | none => rdsSecurityGroups node apiCall rest g neighbors
      | some sgid =>
          let sgNode : Node :=
            { id := sgid, type := "SecurityGroup", name := sgid,
              region := node.region, account := node.account,
              metadata := [("status", AttrVal.ostr sg.status)] }
          let g := g.addNode sgNode
          let g := g.addEdge
            { fromId := node.id, toId := sgNode.id,
              relationType := "uses-security-group",
              evidence := { apiCall := apiCall,
                            fields := [("VpcSecurityGroupId", AttrVal.str sgid)] } }
          rdsSecurityGroups node apiCall rest g (neighbors ++ [sgNode.id])

/-- The `for ... instance.DBParameterGroups` loop of
`discoverRDSInstance`. -/
def rdsParameterGroups (node : Node) :
    List DBParameterGroupStatus → Graph → List String → Graph × List String
  | [], g, neighbors => (g, neighbors)
  | pg :: rest, g, neighbors =>
      match pg.dbParameterGroupName with
      | none => rdsParameterGroups node rest g neighbors
      | some pgname =>
          let pgNode : Node :=
            { id := pgname, type := "DBParameterGroup", name := pgname,
              region := node.region, account := node.account,
              metadata := [("status", AttrVal.ostr pg.parameterApplyStatus)] }
          let g := g.addNode pgNode
          let g := g.addEdge
            { fromId := node.id, toId := pgNode.id,
              relationType := "uses-parameter-group",
              evidence := { apiCall := "DescribeDBInstances",
                            fields := [("DBParameterGroupName", AttrVal.str pgname)] } }
          rdsParameterGroups node rest g (neighbors ++ [pgNode.id])

/-- The `for ... cluster.DBClusterMembers` loop of `discoverRDSCluster`:
one RDSInstance node and a `contains` edge from the cluster per member. -/
def rdsClusterMembers (node : Node) :
    List DBClusterMember → Graph → List String → Graph × List String
  | [], g, neighbors => (g, neighbors)
  | member :: rest, g, neighbors =>
      match member.dbInstanceIdentifier with
      | none => rdsClusterMembers node rest g neighbors
      | some mid =>
          let instanceNode : Node :=
            { id := mid, type := "RDSInstance", name := mid,
              region := node.region, account := node.account,
              metadata := [("isClusterWriter", AttrVal.obool member.isClusterWriter)] }
          let g := g.addNode instanceNode
          let g := g.addEdge
            { fromId := node.id, toId := instanceNode.id,
              relationType := "contains",
              evidence := { apiCall := "DescribeDBClusters",
                            fields := [("DBInstanceIdentifier", AttrVal.str mid),
                                       ("IsClusterWriter", AttrVal.obool member.isClusterWriter)] } }
          rdsClusterMembers node rest g (neighbors ++ [instanceNode.id])

/-- The `// Discover subnet group` block of `discoverRDSInstance`: the
subnet-group node, its edge, and the per-subnet loop. -/
def rdsInstanceSubnetGroupStage (node : Node) (inst : DBInstanceData)
    (st : Graph × List String) : Graph × List String :=
  match inst.dbSubnetGroup with
  | none => st
  | some sgrp =>
      match sgrp.dbSubnetGroupName with
      | none => st
      | some sgname =>
          let subnetGroupNode : Node :=
            { id := sgname, type := "DBSubnetGroup", name := sgname,
              region := node.region, account := node.account,
              metadata := [("vpcId", AttrVal.ostr sgrp.vpcId)] ++
                (match sgrp.dbSubnetGroupDescription with
                 | some d => [("description", AttrVal.str d)]
                 | none => []) }
          let g2 := st.1.addNode subnetGroupNode
          let g2 := g2.addEdge
            { fromId := node.id, toId := subnetGroupNode.id,
              relationType := "uses-subnet-group",
              evidence := { apiCall := "DescribeDBInstances",
                            fields := [("DBSubnetGroupName", AttrVal.str sgname)] } }
          rdsInstanceSubnets node subnetGroupNode.id sgrp.subnets g2
            (st.2 ++ [subnetGroupNode.id])

/-- The `// Discover cluster membership` block of `discoverRDSInstance`:
when the instance belongs to a cluster, the cluster node is added and the
edge runs cluster → instance. -/
def rdsInstanceClusterStage (node : Node) (inst : DBInstanceData)
    (st : Graph × List String) : Graph × List String :=
  match inst.dbClusterIdentifier with
  | none => st
  | some cid =>
      let clusterNode : Node :=
        { id := cid, type := "RDSCluster", name := cid,
          region := node.region, account := node.account }
      let g2 := st.1.addNode clusterNode
      let g2 := g2.addEdge
        { fromId := clusterNode.id, toId := node.id,
          relationType := "contains",
          evidence := { apiCall := "DescribeDBInstances",
                        fields := [("DBClusterIdentifier", AttrVal.str cid)] } }
      (g2, st.2 ++ [clusterNode.id])

/-- The `// Discover upstream connections using heuristics if enabled`
block of `discoverRDSInstance`: the upstream resolver runs only when the
`rds-endpoint` heuristic is enabled and the endpoint address is present,
and its failure only drops its findings (warn-and-continue). -/
def rdsInstanceHeuristicStage (upstream : UpstreamFn) (opts : Options) (node : Node)
    (inst : DBInstanceData) (st : Graph × List String) :
    Except String (Graph × List String) :=
  if hasHeuristic opts "rds-endpoint" then
    match inst.endpoint with
    | some ep =>
        match ep.address with
        | some addr =>
            match upstream addr node st.1 with
            | .ok r => .ok (r.1, st.2 ++ r.2)
            | .error _ => .ok st
        | none => .ok st
    | none => .ok st
  else .ok st

/-- `Discoverer.discoverRDSInstance`, with the heuristic upstream resolver
it calls made a parameter (`upstream`) so the opt-in gate can be stated;
the shipped entry point fixes it to `discoverRDSUpstream`.  The body
follows the Go function: describe the instance (a required call — its
failure or an empty result fails the expansion), then the subnet-group,
security-group, parameter-group, cluster-membership and heuristic
blocks. -/
def discoverRDSInstanceWith (upstream : UpstreamFn) (api : RDSApi) (opts : Options)
    (node : Node) (g : Graph) : Except String (Graph × List String) :=
  match api.describeDBInstances node.name with
  | .error e => .error ("failed to describe RDS instance: " ++ e)
  | .ok [] => .error ("RDS instance not found: " ++ node.name)
  | .ok (inst :: _) =>
      let st := rdsInstanceSubnetGroupStage node inst (g, [])
      let st := rdsSecurityGroups node "DescribeDBInstances" inst.vpcSecurityGroups st.1 st.2
      let st := rdsParameterGroups node inst.dbParameterGroups st.1 st.2
      let st := rdsInstanceClusterStage node inst st
      rdsInstanceHeuristicStage upstream opts node inst st

/-- `Discoverer.discoverRDSInstance` as shipped: the upstream resolver is
the `discoverRDSUpstream` stub. -/
def discoverRDSInstance (api : RDSApi) (opts : Options) (node : Node) (g : Graph) :
    Except String (Graph × List String) :=
  discoverRDSInstanceWith discoverRDSUpstream api opts node g

/-- The `// Discover subnet group` block of `discoverRDSCluster`. -/
def rdsClusterSubnetGroupStage (node : Node) (cluster : DBClusterData)
    (st : Graph × List String) : Graph × List String :=
  match cluster.dbSubnetGroup with
  | none => st
  | some sgname =>
      let subnetGroupNode : Node :=
        { id := sgname, type := "DBSubnetGroup", name := sgname,
          region := node.region, account := node.account }
      let g2 := st.1.addNode subnetGroupNode
      let g2 := g2.addEdge
        { fromId := node.id, toId := subnetGroupNode.id,
          relationType := "uses-subnet-group",
          evidence := { apiCall := "DescribeDBClusters",
                        fields := [("DBSubnetGroup", AttrVal.str sgname)] } }
      (g2, st.2 ++ [subnetGroupNode.id])

/-- The `// Discover parameter group` block of `discoverRDSCluster`. -/
def rdsClusterParameterGroupStage (node : Node) (cluster : DBClusterData)
    (st : Graph × List String) : Graph × List String :=
  match cluster.dbClusterParameterGroup with
  | none => st
  | some pgname =>
      let pgNode : Node :=
        { id := pgname, type := "DBClusterParameterGroup", name := pgname,
          region := node.region, account := node.account }
      let g2 := st.1.addNode pgNode
      let g2 := g2.addEdge
        { fromId := node.id, toId := pgNode.id,
          relationType := "uses-parameter-group",
          evidence := { apiCall := "DescribeDBClusters",
                        fields := [("DBClusterParameterGroup", AttrVal.str pgname)] } }
      (g2, st.2 ++ [pgNode.id])

/-- The heuristic block of `discoverRDSCluster` (cluster endpoint is a
plain optional string). -/
def rdsClusterHeuristicStage (upstream : UpstreamFn) (opts : Options) (node : Node)
    (cluster : DBClusterData) (st : Graph × List String) :
    Except String (Graph × List String) :=
  if hasHeuristic opts "rds-endpoint" then
    match cluster.endpoint with
    | some ep =>
        match upstream ep node st.1 with
        | .ok r => .ok (r.1, st.2 ++ r.2)
        | .error _ => .ok st
    | none => .ok st
  else .ok st

/-- `Discoverer.discoverRDSCluster`, with the upstream resolver as a
parameter exactly as for the instance side: describe the cluster (required
call), then the member, subnet-group, security-group, parameter-group and
heuristic blocks. -/
def discoverRDSClusterWith (upstream : UpstreamFn) (api : RDSApi) (opts : Options)
    (node : Node) (g : Graph) : Except String (Graph × List String) :=
  match api.describeDBClusters node.name with
  | .error e => .error ("failed to describe RDS cluster: " ++ e)
  | .ok [] => .error ("RDS cluster not found: " ++ node.name)
  | .ok (cluster :: _) =>
      let st := rdsClusterMembers node cluster.dbClusterMembers g []
      let st := rdsClusterSubnetGroupStage node cluster st
      let st := rdsSecurityGroups node "DescribeDBClusters" cluster.vpcSecurityGroups st.1 st.2
      let st := rdsClusterParameterGroupStage node cluster st
      rdsClusterHeuristicStage upstream opts node cluster st

/-- `Discoverer.discoverRDSCluster` as shipped. -/
def discoverRDSCluster (api : RDSApi) (opts : Options) (node : Node) (g : Graph) :
    Except String (Graph × List String) :=
  discoverRDSClusterWith discoverRDSUpstream api opts node g

/-- Every edge of `g1` is either an edge `g0` already had or carries a
non-heuristic evidence flag: the relation "the step from `g0` to `g1` only
created non-heuristic edges". -/
def newEdgesNonHeuristic (g0 g1 : Graph) : Prop :=
  ∀ e ∈ g1.edges, e ∈ g0.edges ∨ e.evidence.heuristic = false

theorem neh_refl (g : Graph) : newEdgesNonHeuristic g g :=
  fun _ he => Or.inl he

theorem neh_trans {g0 g1 g2 : Graph} (h01 : newEdgesNonHeuristic g0 g1)
    (h12 : newEdgesNonHeuristic g1 g2) : newEdgesNonHeuristic g0 g2 := by
  intro e he
  rcases h12 e he with h | h
  · exact h01 e h
  · exact Or.inr h

theorem neh_addNode (g : Graph) (n : Node) : newEdgesNonHeuristic g (g.addNode n) := by
  intro e he
  unfold Graph.addNode at he
  split at he <;> exact Or.inl he

theorem neh_addEdge {e2 : Edge} (g : Graph) (h : e2.evidence.heuristic = false) :
    newEdgesNonHeuristic g (g.addEdge e2) := by
  intro e he
  simp only [Graph.addEdge, List.mem_append, List.mem_singleton] at he
  rcases he with h1 | h1
  · exact Or.inl h1
  · subst h1; exact Or.inr h

theorem rdsInstanceSubnets_neh (node : Node) (sgid : String) :
    ∀ (subnets : List DBSubnet) (g : Graph) (acc : List String),
      newEdgesNonHeuristic g (rdsInstanceSubnets node sgid subnets g acc).1 := by
  intro subnets
  induction subnets with
  | nil => intro g acc; exact neh_refl g
  | cons subnet rest ih =>
      intro g acc
      unfold rdsInstanceSubnets
      cases hs : subnet.subnetIdentifier with
      | none => exact ih g acc
      | some sid =>
          exact neh_trans
            (neh_trans (neh_addNode g _) (neh_addEdge _ rfl)) (ih _ _)

theorem rdsSecurityGroups_neh (node : Node) (apiCall : String) :
    ∀ (sgs : List VpcSecurityGroupMembership) (g : Graph) (acc : List String),
      newEdgesNonHeuristic g (rdsSecurityGroups node apiCall sgs g acc).1 := by
  intro sgs
  induction sgs with
  | nil => intro g acc; exact neh_refl g
  | cons sg rest ih =>
      intro g acc
      unfold rdsSecurityGroups
      cases hs : sg.vpcSecurityGroupId with
      | none => exact ih g acc
      | some sgid =>
          exact neh_trans
            (neh_trans (neh_addNode g _) (neh_addEdge _ rfl)) (ih _ _)

theorem rdsParameterGroups_neh (node : Node) :
    ∀ (pgs : List DBParameterGroupStatus) (g : Graph) (acc : List String),
      newEdgesNonHeuristic g (rdsParameterGroups node pgs g acc).1 := by
  intro pgs
  induction pgs with
  | nil => intro g acc; exact neh_refl g
  | cons pg rest ih =>
      intro g acc
      unfold rdsParameterGroups
      cases hs : pg.dbParameterGroupName with
      | none => exact ih g acc
      | some pgname =>
          exact neh_trans
            (neh_trans (neh_addNode g _) (neh_addEdge _ rfl)) (ih _ _)

theorem rdsClusterMembers_neh (node : Node) :
    ∀ (members : List DBClusterMember) (g : Graph) (acc : List String),
      newEdgesNonHeuristic g (rdsClusterMembers node members g acc).1 := by
  intro members
  induction members with
  | nil => intro g acc; exact neh_refl g
  | cons member rest ih =>
      intro g acc
      unfold rdsClusterMembers
      cases hs : member.dbInstanceIdentifier with
      | none => exact ih g acc
      | some mid =>
          exact neh_trans
            (neh_trans (neh_addNode g _) (neh_addEdge _ rfl)) (ih _ _)

theorem rdsInstanceSubnetGroupStage_neh (node : Node) (inst : DBInstanceData)
    (st : Graph × List String) :
    newEdgesNonHeuristic st.1 (rdsInstanceSubnetGroupStage node inst st).1 := by
  unfold rdsInstanceSubnetGroupStage
  cases hg : inst.dbSubnetGroup with
  | none => exact neh_refl st.1
  | some sgrp =>
      cases hn : sgrp.dbSubnetGroupName with
      | none => simp only [hn]; exact neh_refl st.1
      | some sgname =>
          simp only [hn]
          exact neh_trans
            (neh_trans (neh_addNode st.1 _) (neh_addEdge _ rfl))
            (rdsInstanceSubnets_neh node _ sgrp.subnets _ _)

theorem rdsInstanceClusterStage_neh (node : Node) (inst : DBInstanceData)
    (st : Graph × List String) :
    newEdgesNonHeuristic st.1 (rdsInstanceClusterStage node inst st).1 := by
  unfold rdsInstanceClusterStage
  cases hc : inst.dbClusterIdentifier with
  | none => exact neh_refl st.1
  | some cid =>
      simp only [hc]
      exact neh_trans (neh_addNode st.1 _) (neh_addEdge _ rfl)

/-- The stub upstream resolver leaves the graph untouched, so the
heuristic stage never adds edges at all when the shipped resolver is
used. -/
theorem rdsInstanceHeuristicStage_stub (opts : Options) (node : Node)
    (inst : DBInstanceData) (st : Graph × List String) (res : Graph × List String)
    (h : rdsInstanceHeuristicStage discoverRDSUpstream opts node inst st = .ok res) :
    res.1 = st.1 := by
  unfold rdsInstanceHeuristicStage at h
  split at h
  · cases hep : inst.endpoint with
    | none => simp only [hep] at h; injection h with h2; rw [← h2]
    | some ep =>
        simp only [hep] at h
        cases ha : ep.address with
        | none => simp only [ha] at h; injection h with h2; rw [← h2]
        | some addr =>
            simp only [ha, discoverRDSUpstream] at h
            injection h with h2
            rw [← h2]
  · injection h with h2
    rw [← h2]

/-- C7's instance-side argument: a successful `discoverRDSInstance`
(shipped upstream stub) only ever creates non-heuristic edges. -/
theorem discoverRDSInstance_neh (api : RDSApi) (opts : Options) (node : Node)
    (g : Graph) (res : Graph × List String)
    (h : discoverRDSInstance api opts node g = .ok res) :
    newEdgesNonHeuristic g res.1 := by
  unfold discoverRDSInstance discoverRDSInstanceWith at h
  cases hd : api.describeDBInstances node.name with
  | error e => rw [hd] at h; exact Except.noConfusion h
  | ok insts =>
      rw [hd] at h
      cases insts with
      | nil => exact Except.noConfusion h
      | cons inst _ =>
          dsimp only at h
          have h5 := rdsInstanceHeuristicStage_stub opts node inst _ res h
          rw [h5]
          exact neh_trans (rdsInstanceSubnetGroupStage_neh node inst (g, []))
            (neh_trans
              (rdsSecurityGroups_neh node "DescribeDBInstances" inst.vpcSecurityGroups _ _)
              (neh_trans (rdsParameterGroups_neh node inst.dbParameterGroups _ _)
                (rdsInstanceClusterStage_neh node inst _)))

theorem rdsClusterSubnetGroupStage_neh (node : Node) (cluster : DBClusterData)
    (st : Graph × List String) :
    newEdgesNonHeuristic st.1 (rdsClusterSubnetGroupStage node cluster st).1 := by
  unfold rdsClusterSubnetGroupStage
  cases hg : cluster.dbSubnetGroup with
  | none => exact neh_refl st.1
  | some sgname =>
      simp only [hg]
      exact neh_trans (neh_addNode st.1 _) (neh_addEdge _ rfl)

theorem rdsClusterParameterGroupStage_neh (node : Node) (cluster : DBClusterData)
    (st : Graph × List String) :
    newEdgesNonHeuristic st.1 (rdsClusterParameterGroupStage node cluster st).1 := by
  unfold rdsClusterParameterGroupStage
  cases hg : cluster.dbClusterParameterGroup with
  | none => exact neh_refl st.1
  | some pgname =>
      simp only [hg]
      exact neh_trans (neh_addNode st.1 _) (neh_addEdge _ rfl)

/-- With the shipped stub resolver, the cluster heuristic block leaves the
graph unchanged. -/
theorem rdsClusterHeuristicStage_stub (opts : Options) (node : Node)
    (cluster : DBClusterData) (st : Graph × List String) (res : Graph × List String)
    (h : rdsClusterHeuristicStage discoverRDSUpstream opts node cluster st = .ok res) :
    res.1 = st.1 := by
  unfold rdsClusterHeuristicStage at h
  split at h
  · cases hep : cluster.endpoint with
    | none => simp only [hep] at h; injection h with h2; rw [← h2]
    | some ep =>
        simp only [hep, discoverRDSUpstream] at h
        injection h with h2
        rw [← h2]
  · injection h with h2
    rw [← h2]

/-- C7's cluster-side argument: a successful `discoverRDSCluster`
(shipped upstream stub) only ever creates non-heuristic edges. -/
theorem discoverRDSCluster_neh (api : RDSApi) (opts : Options) (node : Node)
    (g : Graph) (res : Graph × List String)
    (h : discoverRDSCluster api opts node g = .ok res) :
    newEdgesNonHeuristic g res.1 := by
  unfold discoverRDSCluster discoverRDSClusterWith at h
  cases hd : api.describeDBClusters node.name with
  | error e => rw [hd] at h; exact Except.noConfusion h
  | ok clusters =>
      rw [hd] at h
      cases clusters with
      | nil => exact Except.noConfusion h
      | cons cluster _ =>
          dsimp only at h
          have h5 := rdsClusterHeuristicStage_stub opts node cluster _ res h
          rw [h5]
          exact neh_trans (rdsClusterMembers_neh node cluster.dbClusterMembers g [])
            (neh_trans (rdsClusterSubnetGroupStage_neh node cluster _)
              (neh_trans
                (rdsSecurityGroups_neh node "DescribeDBClusters" cluster.vpcSecurityGroups _ _)
                (rdsClusterParameterGroupStage_neh node cluster _)))

/-- When the `rds-endpoint` heuristic is not enabled, the instance
expander's result does not depend on the upstream resolver at all: it is
never invoked. -/
theorem discoverRDSInstanceWith_gate (u1 u2 : UpstreamFn) (api : RDSApi)
    (opts : Options) (node : Node) (g : Graph)
    (hgate : hasHeuristic opts "rds-endpoint" = false) :
    discoverRDSInstanceWith u1 api opts node g = discoverRDSInstanceWith u2 api opts node g := by
  unfold discoverRDSInstanceWith
  cases api.describeDBInstances node.name with
  | error e => rfl
  | ok insts =>
      cases insts with
      | nil => rfl
      | cons inst rest =>
          dsimp only
          unfold rdsInstanceHeuristicStage
          rw [hgate]
          simp only [Bool.false_eq_true, if_false]

/-- Cluster-side version of the opt-in gate. -/
theorem discoverRDSClusterWith_gate (u1 u2 : UpstreamFn) (api : RDSApi)
    (opts : Options) (node : Node) (g : Graph)
    (hgate : hasHeuristic opts "rds-endpoint" = false) :
    discoverRDSClusterWith u1 api opts node g = discoverRDSClusterWith u2 api opts node g := by
  unfold discoverRDSClusterWith
  cases api.describeDBClusters node.name with
  | error e => rfl
  | ok clusters =>
      cases clusters with
      | nil => rfl
      | cons cluster rest =>
          dsimp only
          unfold rdsClusterHeuristicStage
          rw [hgate]
          simp only [Bool.false_eq_true, if_false]

/-- A concrete one-instance DescribeDBInstances response with a subnet
group, a security group, a parameter group and a cluster membership. -/
def c7Api : RDSApi where
  describeDBInstances := fun _ =>
    .ok [{ dbSubnetGroup := some
             { dbSubnetGroupName := some "main-subnet-group",
               vpcId := some "vpc-1", dbSubnetGroupDescription := none,
               subnets := [{ subnetIdentifier := some "subnet-1",
                             subnetAvailabilityZone := none }] },
           vpcSecurityGroups := [{ vpcSecurityGroupId := some "sg-1",
                                   status := some "active" }],
           dbParameterGroups := [{ dbParameterGroupName := some "pg-1",
                                   parameterApplyStatus := none }],
           dbClusterIdentifier := some "my-cluster",
           endpoint := none }]
  describeDBClusters := fun _ => .error "unused"

/-- `graph.BFSLevel` from internal/graph/bfs.go: Go's `[]*Node` may hold a
nil pointer for an id missing from the node map (`g.nodes[nodeID]`), so
entries are `Option Node`. -/
structure BFSLevel where
  depth : Nat
  nodes : List (Option Node)
deriving Repr, DecidableEq

/-- The ids enqueued for `nodeID` by the neighbor scan inside `BFS`'s inner
loop: targets of edges leaving `nodeID`, in edge order (the visited check
is applied by `enqueueNeighbors`, exactly as the Go loop interleaves it). -/
def Graph.successorsFrom (g : Graph) (nodeID : String) : List String :=
  (g.edges.filter (fun e => e.fromId == nodeID)).map (fun e => e.toId)

/-- One BFS level: process each id of the level in order, appending its
unvisited successors to the accumulating next-level queue (`nextQ`) and
marking them visited, exactly as the Go inner loop does on the single
shared queue. -/
def expandLevel (g : Graph) : List String → List String → List String → List String × List String
  | [], nextQ, visited => (nextQ, visited)
  | id :: rest, nextQ, visited =>
      let qv := enqueueNeighbors (g.successorsFrom id) nextQ visited
      expandLevel g rest qv.1 qv.2

/-- All ids the BFS can ever enqueue beyond the start: targets of edges. -/
def bfsUniverse (g : Graph) : List String :=
  g.edges.map (fun e => e.toId)

/-- Number of potential enqueue targets not yet visited; the BFS level loop
strictly decreases it whenever it produces a nonempty next level. -/
def unvisitedCount (g : Graph) (visited : List String) : Nat :=
  ((bfsUniverse g).filter (fun y => !(visited.contains y))).length

/-- The `for len(queue) > 0` loop of `Graph.BFS`, with a fuel parameter so
the definition is structural (and hence computable); `unvisitedCount`
strictly decreases at every level that enqueues anything, so any fuel
larger than it makes the fuel bound unreachable (proved as the
fuel-stability clause of the BFS theorem — this is the termination
argument). Returns the queue (id list) of each level. -/
def bfsAuxFuel (g : Graph) : Nat → List String → List String → List (List String)
  | 0, _, _ => []
  | fuel + 1, queue, visited =>
      match queue with
      | [] => []
      | _ :: _ =>
          let r := expandLevel g queue [] visited
          queue :: bfsAuxFuel g fuel r.1 r.2

/-- `Graph.BFS` from internal/graph/bfs.go: nil for a missing start;
otherwise seed queue and visited with the start id, run the level loop,
and present each level's ids as `BFSLevel` records (depth counts from 0,
node pointers looked up in the node map). -/
def Graph.BFS (g : Graph) (startID : String) : List BFSLevel :=
  if g.hasNode startID then
    ((bfsAuxFuel g (g.edges.length + 1) [startID] [startID]).enum.map
      (fun p => { depth := p.1, nodes := p.2.map (fun id => g.getNode id) }))
  else []

/-- One edge step of the graph: an edge from `x` to `y` exists. -/
def stepRel (g : Graph) (x y : String) : Prop :=
  ∃ e ∈ g.edges, e.fromId = x ∧ e.toId = y

theorem contains_iff_mem (l : List String) (a : String) : l.contains a = true ↔ a ∈ l := by
  simp [List.contains]

theorem mem_successorsFrom (g : Graph) (x y : String) :
    y ∈ g.successorsFrom x ↔ stepRel g x y := by
  simp only [Graph.successorsFrom, List.mem_map, List.mem_filter, stepRel]
  constructor
  · rintro ⟨e, ⟨he, hfrom⟩, hto⟩
    exact ⟨e, he, by simpa using hfrom, hto⟩
  · rintro ⟨e, he, hfrom, hto⟩
    exact ⟨e, ⟨he, by simpa using hfrom⟩, hto⟩

theorem successorsFrom_subset_universe (g : Graph) (x y : String)
    (h : y ∈ g.successorsFrom x) : y ∈ bfsUniverse g := by
  simp only [Graph.successorsFrom, List.mem_map, List.mem_filter] at h
  rcases h with ⟨e, ⟨he, _⟩, hto⟩
  exact List.mem_map.2 ⟨e, he, hto⟩

/-- `enqueueNeighbors` only grows the queue. -/
theorem enq_queue_mono (ns : List String) :
    ∀ (q v : List String) (x : String), x ∈ q → x ∈ (enqueueNeighbors ns q v).1 := by
  induction ns with
  | nil => intro q v x hx; exact hx
  | cons n rest ih =>
      intro q v x hx
      unfold enqueueNeighbors
      split
      · exact ih q v x hx
      · exact ih (q ++ [n]) (n :: v) x (List.mem_append_left _ hx)

/-- `enqueueNeighbors` only grows the visited set. -/
theorem enq_visited_mono (ns : List String) :
    ∀ (q v : List String) (x : String), x ∈ v → x ∈ (enqueueNeighbors ns q v).2 := by
  induction ns with
  | nil => intro q v x hx; exact hx
  | cons n rest ih =>
      intro q v x hx
      unfold enqueueNeighbors
      split
      · exact ih q v x hx
      · exact ih (q ++ [n]) (n :: v) x (List.mem_cons_of_mem n hx)

/-- Where queue entries come from: already queued, or a fresh (unvisited)
neighbor that is also recorded visited in the result. -/
theorem enq_queue_src (ns : List String) :
    ∀ (q v : List String) (x : String), x ∈ (enqueueNeighbors ns q v).1 →
      x ∈ q ∨ (x ∈ ns ∧ ¬ x ∈ v ∧ x ∈ (enqueueNeighbors ns q v).2) := by
  induction ns with
  | nil => intro q v x hx; exact Or.inl hx
  | cons n rest ih =>
      intro q v x hx
      unfold enqueueNeighbors at hx ⊢
      split at hx
      · rename_i hn
        rcases ih q v x hx with h | ⟨h1, h2, h3⟩
        · exact Or.inl h
        · refine Or.inr ⟨List.mem_cons_of_mem n h1, h2, ?_⟩
          rw [if_pos hn]
          exact h3
      · rename_i hn
        rcases ih (q ++ [n]) (n :: v) x hx with h | ⟨h1, h2, h3⟩
        · rcases List.mem_append.1 h with h | h
          · exact Or.inl h
          · have hxn : x = n := by simpa using h
            subst hxn
            refine Or.inr ⟨List.mem_cons_self x rest, ?_, ?_⟩
            · intro hv
              exact absurd ((contains_iff_mem v x).2 hv) (by simpa using hn)
            · rw [if_neg hn]
              exact enq_visited_mono rest (q ++ [x]) (x :: v) x (List.mem_cons_self x v)
        · refine Or.inr ⟨List.mem_cons_of_mem n h1, fun hv => h2 (List.mem_cons_of_mem n hv), ?_⟩
          rw [if_neg hn]
          exact h3

/-- Every neighbor ends up queued (now or previously) or was already
visited on entry. -/
theorem enq_neighbor_closed (ns : List String) :
    ∀ (q v : List String) (y : String), y ∈ ns →
      y ∈ (enqueueNeighbors ns q v).1 ∨ y ∈ v := by
  induction ns with
  | nil => intro q v y hy; cases hy
  | cons n rest ih =>
      intro q v y hy
      unfold enqueueNeighbors
      split
      · rename_i hn
        rcases List.mem_cons.1 hy with h | h
        · subst h
          exact Or.inr ((contains_iff_mem v y).1 hn)
        · exact ih q v y h
      · rename_i hn
        rcases List.mem_cons.1 hy with h | h
        · subst h
          exact Or.inl (enq_queue_mono rest (q ++ [y]) (y :: v) y
            (List.mem_append_right _ (List.mem_singleton.2 rfl)))
        · rcases ih (q ++ [n]) (n :: v) y h with h2 | h2
          · exact Or.inl h2
          · rcases List.mem_cons.1 h2 with h3 | h3
            · subst h3
              exact Or.inl (enq_queue_mono rest (q ++ [y]) (y :: v) y
                (List.mem_append_right _ (List.mem_singleton.2 rfl)))
            · exact Or.inr h3

/-- Where visited entries come from: already visited or freshly queued. -/
theorem enq_visited_src (ns : List String) :
    ∀ (q v : List String) (x : String), x ∈ (enqueueNeighbors ns q v).2 →
      x ∈ v ∨ x ∈ (enqueueNeighbors ns q v).1 := by
  induction ns with
  | nil => intro q v x hx; exact Or.inl hx
  | cons n rest ih =>
      intro q v x hx
      unfold enqueueNeighbors at hx ⊢
      split at hx
      · rename_i hn
        rw [if_pos hn]
        exact ih q v x hx
      · rename_i hn
        rw [if_neg hn]
        rcases ih (q ++ [n]) (n :: v) x hx with h | h
        · rcases List.mem_cons.1 h with h2 | h2
          · subst h2
            exact Or.inr (enq_queue_mono rest (q ++ [x]) (x :: v) x
              (List.mem_append_right _ (List.mem_singleton.2 rfl)))
          · exact Or.inl h2
        · exact Or.inr h

/-- The queue stays duplicate-free and covered by the visited set. -/
theorem enq_nodup (ns : List String) :
    ∀ (q v : List String), q.Nodup → (∀ x ∈ q, x ∈ v) →
      (enqueueNeighbors ns q v).1.Nodup ∧
      (∀ x ∈ (enqueueNeighbors ns q v).1, x ∈ (enqueueNeighbors ns q v).2) := by
  induction ns with
  | nil => intro q v h1 h2; exact ⟨h1, h2⟩
  | cons n rest ih =>
      intro q v h1 h2
      unfold enqueueNeighbors
      split
      · exact ih q v h1 h2
      · rename_i hn
        refine ih (q ++ [n]) (n :: v) ?_ ?_
        · refine List.Nodup.append h1 (List.nodup_singleton n) ?_
          intro x hxq hxn
          have hx : x = n := by simpa using hxn
          subst hx
          exact absurd ((contains_iff_mem v x).2 (h2 x hxq)) (by simpa using hn)
        · intro x hx
          rcases List.mem_append.1 hx with h | h
          · exact List.mem_cons_of_mem n (h2 x h)
          · have hx2 : x = n := by simpa using h
            subst hx2
            exact List.mem_cons_self x v

theorem expand_queue_mono (g : Graph) :
    ∀ (lvl q v : List String) (x : String), x ∈ q → x ∈ (expandLevel g lvl q v).1 := by
  intro lvl
  induction lvl with
  | nil => intro q v x hx; exact hx
  | cons id rest ih =>
      intro q v x hx
      unfold expandLevel
      exact ih _ _ x (enq_queue_mono _ q v x hx)

theorem expand_visited_mono (g : Graph) :
    ∀ (lvl q v : List String) (x : String), x ∈ v → x ∈ (expandLevel g lvl q v).2 := by
  intro lvl
  induction lvl with
  | nil => intro q v x hx; exact hx
  | cons id rest ih =>
      intro q v x hx
      unfold expandLevel
      exact ih _ _ x (enq_visited_mono _ q v x hx)

theorem expand_queue_src (g : Graph) :
    ∀ (lvl q v : List String) (x : String), x ∈ (expandLevel g lvl q v).1 →
      x ∈ q ∨ (x ∈ bfsUniverse g ∧ ¬ x ∈ v ∧ x ∈ (expandLevel g lvl q v).2) := by
  intro lvl
  induction lvl with
  | nil => intro q v x hx; exact Or.inl hx
  | cons id rest ih =>
      intro q v x hx
      unfold expandLevel at hx ⊢
      rcases ih _ _ x hx with h | ⟨h1, h2, h3⟩
      · rcases enq_queue_src _ q v x h with h4 | ⟨h4, h5, h6⟩
        · exact Or.inl h4
        · refine Or.inr ⟨successorsFrom_subset_universe g id x h4, h5, ?_⟩
          exact expand_visited_mono g rest _ _ x h6
      · refine Or.inr ⟨h1, ?_, h3⟩
        intro hv
        exact h2 (enq_visited_mono _ q v x hv)

/-- Queue entries are carried over or arise as a successor of some level
member. -/
theorem expand_queue_src_succ (g : Graph) :
    ∀ (lvl q v : List String) (x : String), x ∈ (expandLevel g lvl q v).1 →
      x ∈ q ∨ ∃ id ∈ lvl, x ∈ g.successorsFrom id := by
  intro lvl
  induction lvl with
  | nil => intro q v x hx; exact Or.inl hx
  | cons id rest ih =>
      intro q v x hx
      unfold expandLevel at hx
      rcases ih _ _ x hx with h | ⟨id2, hid2, hsucc⟩
      · rcases enq_queue_src _ q v x h with h4 | ⟨h4, _, _⟩
        · exact Or.inl h4
        · exact Or.inr ⟨id, List.mem_cons_self id rest, h4⟩
      · exact Or.inr ⟨id2, List.mem_cons_of_mem id hid2, hsucc⟩

theorem expand_neighbor_closed (g : Graph) :
    ∀ (lvl q v : List String) (id y : String), id ∈ lvl → y ∈ g.successorsFrom id →
      y ∈ (expandLevel g lvl q v).1 ∨ y ∈ v := by
  intro lvl
  induction lvl with
  | nil => intro q v id y hid; cases hid
  | cons id0 rest ih =>
      intro q v id y hid hy
      unfold expandLevel
      rcases List.mem_cons.1 hid with h | h
      · subst h
        rcases enq_neighbor_closed _ q v y hy with h2 | h2
        · exact Or.inl (expand_queue_mono g rest _ _ y h2)
        · exact Or.inr h2
      · rcases ih _ _ id y h hy with h2 | h2
        · exact Or.inl h2
        · rcases enq_visited_src _ q v y h2 with h3 | h3
          · exact Or.inr h3
          · exact Or.inl (expand_queue_mono g rest _ _ y h3)

theorem expand_visited_src (g : Graph) :
    ∀ (lvl q v : List String) (x : String), x ∈ (expandLevel g lvl q v).2 →
      x ∈ v ∨ x ∈ (expandLevel g lvl q v).1 := by
  intro lvl
  induction lvl with
  | nil => intro q v x hx; exact Or.inl hx
  | cons id rest ih =>
      intro q v x hx
      unfold expandLevel at hx ⊢
      rcases ih _ _ x hx with h | h
      · rcases enq_visited_src _ q v x h with h2 | h2
        · exact Or.inl h2
        · exact Or.inr (expand_queue_mono g rest _ _ x h2)
      · exact Or.inr h

theorem expand_nodup (g : Graph) :
    ∀ (lvl q v : List String), q.Nodup → (∀ x ∈ q, x ∈ v) →
      (expandLevel g lvl q v).1.Nodup ∧
      (∀ x ∈ (expandLevel g lvl q v).1, x ∈ (expandLevel g lvl q v).2) := by
  intro lvl
  induction lvl with
  | nil => intro q v h1 h2; exact ⟨h1, h2⟩
  | cons id rest ih =>
      intro q v h1 h2
      unfold expandLevel
      have h3 := enq_nodup (g.successorsFrom id) q v h1 h2
      exact ih _ _ h3.1 h3.2

theorem not_mem_of_contains_false {l : List String} {a : String}
    (h : l.contains a = false) : ¬ a ∈ l := by
  intro hm
  rw [(contains_iff_mem l a).2 hm] at h
  exact Bool.noConfusion h

theorem filter_not_contains_le (U v v' : List String)
    (h : ∀ x ∈ v, x ∈ v') :
    (U.filter (fun y => !(v'.contains y))).length ≤
      (U.filter (fun y => !(v.contains y))).length := by
  induction U with
  | nil => exact Nat.le_refl _
  | cons u rest ih =>
      simp only [List.filter_cons]
      cases hv' : v'.contains u with
      | true =>
          simp only [Bool.not_true, Bool.false_eq_true, if_false]
          cases hv : v.contains u with
          | true => simpa using ih
          | false =>
              simp only [Bool.not_false, if_true]
              exact Nat.le_succ_of_le ih
      | false =>
          have hv : v.contains u = false := by
            cases hvc : v.contains u with
            | false => rfl
            | true =>
                exact absurd (h u ((contains_iff_mem v u).1 hvc))
                  (not_mem_of_contains_false hv')
          simp only [hv, hv', Bool.not_false, if_true, List.length_cons]
          exact Nat.succ_le_succ ih

theorem filter_not_contains_lt (U v v' : List String) (x : String)
    (hsub : ∀ z ∈ v, z ∈ v') (hxU : x ∈ U) (hxv : ¬ x ∈ v) (hxv' : x ∈ v') :
    (U.filter (fun y => !(v'.contains y))).length <
      (U.filter (fun y => !(v.contains y))).length := by
  induction U with
  | nil => cases hxU
  | cons u rest ih =>
      simp only [List.filter_cons]
      rcases List.mem_cons.1 hxU with h | h
      · subst h
        have hv' : v'.contains x = true := (contains_iff_mem v' x).2 hxv'
        have hv : v.contains x = false := by
          cases hvc : v.contains x with
          | false => rfl
          | true => exact absurd ((contains_iff_mem v x).1 hvc) hxv
        simp only [hv, hv', Bool.not_true, Bool.not_false, Bool.false_eq_true, if_false, if_true,
          List.length_cons]
        exact Nat.lt_succ_of_le (filter_not_contains_le rest v v' hsub)
      · cases hv' : v'.contains u with
        | true =>
            simp only [Bool.not_true, Bool.false_eq_true, if_false]
            cases hv : v.contains u with
            | true => simpa using ih h
            | false =>
                simp only [Bool.not_false, if_true, List.length_cons]
                exact Nat.lt_succ_of_lt (ih h)
        | false =>
            have hv : v.contains u = false := by
              cases hvc : v.contains u with
              | false => rfl
              | true =>
                  exact absurd (hsub u ((contains_iff_mem v u).1 hvc))
                    (not_mem_of_contains_false hv')
            simp only [hv, hv', Bool.not_false, if_true, List.length_cons]
            exact Nat.succ_lt_succ (ih h)

/-- A level that enqueues anything strictly decreases the number of
unvisited enqueue targets. -/
theorem expand_unvisited_lt (g : Graph) (lvl v : List String)
    (hne : (expandLevel g lvl [] v).1 ≠ []) :
    unvisitedCount g (expandLevel g lvl [] v).2 < unvisitedCount g v := by
  rcases hq : (expandLevel g lvl [] v).1 with _ | ⟨x, rest⟩
  · exact absurd hq hne
  · have hx : x ∈ (expandLevel g lvl [] v).1 := by rw [hq]; exact List.mem_cons_self x rest
    rcases expand_queue_src g lvl [] v x hx with h | ⟨h1, h2, h3⟩
    · cases h
    · exact filter_not_contains_lt (bfsUniverse g) v _ x
        (fun z hz => expand_visited_mono g lvl [] v z hz) h1 h2 h3

/-- The empty queue yields no levels for any fuel. -/
theorem bfsAuxFuel_nil (g : Graph) (fuel : Nat) (v : List String) :
    bfsAuxFuel g fuel [] v = [] := by
  cases fuel <;> rfl

/-- Fuel irrelevance beyond the unvisited count: the loop has terminated
before the bound is reached, so any two sufficient fuels agree.  This is
the termination argument for `Graph.BFS`. -/
theorem bfsAuxFuel_stable (g : Graph) :
    ∀ (fuel1 fuel2 : Nat) (q v : List String),
      unvisitedCount g v < fuel1 → unvisitedCount g v < fuel2 →
      bfsAuxFuel g fuel1 q v = bfsAuxFuel g fuel2 q v := by
  intro fuel1
  induction fuel1 with
  | zero => intro fuel2 q v h1; cases h1
  | succ f1 ih =>
      intro fuel2 q v h1 h2
      cases fuel2 with
      | zero => cases h2
      | succ f2 =>
          cases q with
          | nil => rfl
          | cons id rest =>
              unfold bfsAuxFuel
              dsimp only
              rcases hq : (expandLevel g (id :: rest) [] v).1 with _ | ⟨x, xs⟩
              · rw [bfsAuxFuel_nil, bfsAuxFuel_nil]
              · have hlt := expand_unvisited_lt g (id :: rest) v (by rw [hq]; simp)
                rw [← hq]
                have hf1 : unvisitedCount g (expandLevel g (id :: rest) [] v).2 < f1 := by
                  omega
                have hf2 : unvisitedCount g (expandLevel g (id :: rest) [] v).2 < f2 := by
                  omega
                rw [ih f2 _ _ hf1 hf2]

/-- A nonempty queue is listed in its own levels (when fuel remains). -/
theorem bfsAuxFuel_queue_subset (g : Graph) (fuel : Nat) (q v : List String)
    (hf : 1 ≤ fuel) (x : String) (hx : x ∈ q) :
    x ∈ (bfsAuxFuel g fuel q v).flatten := by
  cases fuel with
  | zero => cases hf
  | succ f =>
      cases q with
      | nil => cases hx
      | cons id rest =>
          unfold bfsAuxFuel
          dsimp only
          rw [List.flatten_cons]
          exact List.mem_append_left _ hx

/-- Everything the level loop lists is reachable from anything that reaches
the whole queue. -/
theorem bfsAuxFuel_sound (g : Graph) (s : String) :
    ∀ (fuel : Nat) (q v : List String),
      (∀ i ∈ q, Relation.ReflTransGen (stepRel g) s i) →
      ∀ x ∈ (bfsAuxFuel g fuel q v).flatten, Relation.ReflTransGen (stepRel g) s x := by
  intro fuel
  induction fuel with
  | zero => intro q v hq x hx; simp [bfsAuxFuel] at hx
  | succ f ih =>
      intro q v hq x hx
      cases q with
      | nil => simp [bfsAuxFuel] at hx
      | cons id rest =>
          unfold bfsAuxFuel at hx
          dsimp only at hx
          rw [List.flatten_cons] at hx
          rcases List.mem_append.1 hx with h | h
          · exact hq x h
          · refine ih _ _ ?_ x h
            intro i hi
            rcases expand_queue_src_succ g (id :: rest) [] v i hi with h2 | ⟨id2, hid2, hsucc⟩
            · cases h2
            · exact Relation.ReflTransGen.tail (hq id2 hid2)
                ((mem_successorsFrom g id2 i).1 hsucc)

/-- The listed ids are duplicate-free, given the seed invariant
(duplicate-free queue covered by the visited set). -/
theorem bfsAuxFuel_nodup (g : Graph) :
    ∀ (fuel : Nat) (q v : List String), q.Nodup → (∀ x ∈ q, x ∈ v) →
      (bfsAuxFuel g fuel q v).flatten.Nodup ∧
      (∀ x ∈ (bfsAuxFuel g fuel q v).flatten, x ∈ q ∨ ¬ x ∈ v) := by
  intro fuel
  induction fuel with
  | zero =>
      intro q v h1 h2
      refine ⟨by simp [bfsAuxFuel], ?_⟩
      intro x hx
      simp [bfsAuxFuel] at hx
  | succ f ih =>
      intro q v h1 h2
      cases q with
      | nil =>
          refine ⟨by simp [bfsAuxFuel], ?_⟩
          intro x hx
          simp [bfsAuxFuel] at hx
      | cons id rest =>
          unfold bfsAuxFuel
          dsimp only
          rw [List.flatten_cons]
          have hx6 := expand_nodup g (id :: rest) [] v List.nodup_nil
            (by intro x hx; cases hx)
          have hih := ih (expandLevel g (id :: rest) [] v).1
            (expandLevel g (id :: rest) [] v).2 hx6.1 hx6.2
          have hdisj : ∀ x ∈ (id :: rest),
              ¬ x ∈ (bfsAuxFuel g f (expandLevel g (id :: rest) [] v).1
                (expandLevel g (id :: rest) [] v).2).flatten := by
            intro x hxq hxF
            rcases hih.2 x hxF with h | h
            · rcases expand_queue_src g (id :: rest) [] v x h with h2 | ⟨_, h3, _⟩
              · cases h2
              · exact h3 (h2 x hxq)
            · exact h (expand_visited_mono g (id :: rest) [] v x (h2 x hxq))
          constructor
          · exact List.Nodup.append h1 hih.1 hdisj
          · intro x hx
            rcases List.mem_append.1 hx with h | h
            · exact Or.inl h
            · rcases hih.2 x h with h2 | h2
              · rcases expand_queue_src g (id :: rest) [] v x h2 with h3 | ⟨_, h4, _⟩
                · cases h3
                · exact Or.inr h4
              · exact Or.inr (fun hv => h2 (expand_visited_mono g (id :: rest) [] v x hv))

/-- Successor-closedness of the listed ids (modulo the initially visited
set), provided the fuel exceeds the unvisited count. -/
theorem bfsAuxFuel_closed (g : Graph) :
    ∀ (fuel : Nat) (q v : List String),
      unvisitedCount g v < fuel →
      ∀ x ∈ (bfsAuxFuel g fuel q v).flatten, ∀ y, stepRel g x y →
        y ∈ (bfsAuxFuel g fuel q v).flatten ∨ y ∈ v := by
  intro fuel
  induction fuel with
  | zero => intro q v hf; exact absurd hf (Nat.not_lt_zero _)
  | succ f ih =>
      intro q v hf x hx y hstep
      cases q with
      | nil => rw [bfsAuxFuel_nil] at hx; cases hx
      | cons id rest =>
          unfold bfsAuxFuel at hx ⊢
          dsimp only at hx ⊢
          rw [List.flatten_cons] at hx ⊢
          rcases List.mem_append.1 hx with h | h
          · rcases expand_neighbor_closed g (id :: rest) [] v x y h
                ((mem_successorsFrom g x y).2 hstep) with h2 | h2
            · have hne : (expandLevel g (id :: rest) [] v).1 ≠ [] := by
                intro hc
                rw [hc] at h2
                cases h2
              have hlt := expand_unvisited_lt g (id :: rest) v hne
              exact Or.inl (List.mem_append_right _
                (bfsAuxFuel_queue_subset g f _ _ (by omega) y h2))
            · exact Or.inr h2
          · by_cases hq : (expandLevel g (id :: rest) [] v).1 = []
            · rw [hq, bfsAuxFuel_nil] at h
              cases h
            · have hlt := expand_unvisited_lt g (id :: rest) v hq
              rcases ih _ _ (by omega) x h y hstep with h2 | h2
              · exact Or.inl (List.mem_append_right _ h2)
              · rcases expand_visited_src g (id :: rest) [] v y h2 with h3 | h3
                · exact Or.inr h3
                · exact Or.inl (List.mem_append_right _
                    (bfsAuxFuel_queue_subset g f _ _ (by omega) y h3))

/-- Test fixture: the 4-cycle A → B → C → D → A (cf. TestBFSCycle). -/
def cycleGraph : Graph :=
  { nodes := [{ id := "A", name := "Node A" }, { id := "B", name := "Node B" },
              { id := "C", name := "Node C" }, { id := "D", name := "Node D" }],
    edges := [{ fromId := "A", toId := "B" }, { fromId := "B", toId := "C" },
              { fromId := "C", toId := "D" }, { fromId := "D", toId := "A" }] }

/-- Test fixture: the diamond A → B, A → C, B → D, C → D. -/
def diamondGraph : Graph :=
  { nodes := [{ id := "A", name := "Node A" }, { id := "B", name := "Node B" },
              { id := "C", name := "Node C" }, { id := "D", name := "Node D" }],
    edges := [{ fromId := "A", toId := "B" }, { fromId := "A", toId := "C" },
              { fromId := "B", toId := "D" }, { fromId := "C", toId := "D" }] }

/-- C8: for every finite graph and every start node present in it,
`Graph.BFS` terminates (any fuel beyond the bound yields the same levels)
and its levels list exactly the ids reachable from the start, each exactly
once; the 4-cycle traversed from any member yields 4 distinct nodes
visited once each, and the diamond from A yields exactly the levels
`[A]`, `[B, C]`, `[D]` with D appearing once. -/
theorem C8_bfs_traversal :
    (∀ (g : Graph) (s : String), g.hasNode s = true →
        ((bfsAuxFuel g (g.edges.length + 1) [s] [s]).flatten.Nodup
         ∧ (∀ x, x ∈ (bfsAuxFuel g (g.edges.length + 1) [s] [s]).flatten ↔
              Relation.ReflTransGen (stepRel g) s x)
         ∧ (∀ fuel, g.edges.length + 1 ≤ fuel →
              bfsAuxFuel g fuel [s] [s] = bfsAuxFuel g (g.edges.length + 1) [s] [s])
         ∧ Graph.BFS g s =
             ((bfsAuxFuel g (g.edges.length + 1) [s] [s]).enum.map
               (fun p => { depth := p.1, nodes := p.2.map (fun id => g.getNode id) }))))
    ∧ (∀ m ∈ (["A", "B", "C", "D"] : List String),
        ((cycleGraph.BFS m).map (fun l => l.nodes)).flatten.length = 4
        ∧ ((bfsAuxFuel cycleGraph (cycleGraph.edges.length + 1) [m] [m]).flatten).Nodup)
    ∧ diamondGraph.BFS "A" =
        [{ depth := 0, nodes := [diamondGraph.getNode "A"] },
         { depth := 1, nodes := [diamondGraph.getNode "B", diamondGraph.getNode "C"] },
         { depth := 2, nodes := [diamondGraph.getNode "D"] }] := by
  refine ⟨?_, by decide, by decide⟩
  intro g s hs
  have hsuff : unvisitedCount g [s] < g.edges.length + 1 := by
    have h1 : unvisitedCount g [s] ≤ (bfsUniverse g).length := List.length_filter_le _ _
    have h2 : (bfsUniverse g).length = g.edges.length := List.length_map _ _
    omega
  refine ⟨?_, ?_, ?_, ?_⟩
  · exact (bfsAuxFuel_nodup g (g.edges.length + 1) [s] [s] (List.nodup_singleton s)
      (by intro x hx; exact hx)).1
  · intro x
    constructor
    · intro hx
      exact bfsAuxFuel_sound g s (g.edges.length + 1) [s] [s]
        (by
          intro i hi
          have : i = s := by simpa using hi
          subst this
          exact Relation.ReflTransGen.refl) x hx
    · intro hreach
      induction hreach with
      | refl =>
          exact bfsAuxFuel_queue_subset g (g.edges.length + 1) [s] [s] (by omega) s
            (by simp)
      | tail hr hstep ihx =>
          rename_i b c
          rcases bfsAuxFuel_closed g (g.edges.length + 1) [s] [s] hsuff _ ihx _ hstep with
            h | h
          · exact h
          · have hy : c = s := List.mem_singleton.1 h
            subst hy
            exact bfsAuxFuel_queue_subset g (g.edges.length + 1) _ _ (by omega) _ (by simp)
  · intro fuel hfuel
    exact bfsAuxFuel_stable g fuel (g.edges.length + 1) [s] [s] (by omega) hsuff
  · simp only [Graph.BFS, hs, if_true]

/-- Witness for C8 at the diamond graph from A. -/
theorem C8_bfs_traversal_witness :
    (bfsAuxFuel diamondGraph (diamondGraph.edges.length + 1) ["A"] ["A"]).flatten.Nodup
    ∧ ("D" ∈ (bfsAuxFuel diamondGraph (diamondGraph.edges.length + 1) ["A"] ["A"]).flatten ↔
        Relation.ReflTransGen (stepRel diamondGraph) "A" "D") :=
  ⟨(C8_bfs_traversal.1 diamondGraph "A" (by rfl)).1,
   (C8_bfs_traversal.1 diamondGraph "A" (by rfl)).2.1 "D"⟩

/-- `elbv2types.TargetTypeEnum` values the target-group switch
distinguishes (`instance`, `ip`, `lambda`; anything else hits the
`default: continue`). -/
inductive TargetTypeEnum where
  | inst
  | ip
  | lam
  | otherTT
deriving Repr, DecidableEq

/-- `elbv2types.TargetDescription`: the code dereferences `Id`
unconditionally, so it is a required field. -/
structure TargetDesc where
  id : String
  port : Option Int
deriving Repr, DecidableEq

/-- `elbv2types.TargetHealthDescription` (the `TargetHealth` payload is
only copied into evidence, rendered as an opaque attribute). -/
structure TargetHealthDesc where
  target : Option TargetDesc
deriving Repr, DecidableEq

/-- `elbv2types.TargetGroup`: the fields the code reads.  `TargetGroupArn`
is dereferenced unconditionally for the node id, so it is required (its
nil-guard in `targetGroupToNode` is then always taken). -/
structure TargetGroupData where
  targetGroupArn : String
  targetGroupName : Option String
  targetType : TargetTypeEnum
  protocol : String
  port : Option Int
  vpcId : Option String
deriving Repr, DecidableEq

/-- The ELBv2 calls `discoverTargetGroup` makes, as oracles. -/
structure ELBApi where
  describeTargetGroups : String → Except String (List TargetGroupData)
  describeTargetHealth : String → Except String (List TargetHealthDesc)

/-- `Discoverer.extractLambdaNameFromARN`. -/
def extractLambdaNameFromARN (arn : String) : String :=
  let parts := goSplit arn ':'
  if parts.length ≥ 7 && parts.getD 5 "" == "function" then parts.getD 6 ""
  else arn

/-- `Discoverer.targetGroupToNode`. -/
def targetGroupToNode (tg : TargetGroupData) : Node :=
  let name := tg.targetGroupName.getD ""
  let parts := goSplit tg.targetGroupArn ':'
  let region := if parts.length ≥ 5 then parts.getD 3 "" else ""
  let account := if parts.length ≥ 5 then parts.getD 4 "" else ""
  { id := tg.targetGroupArn, type := "TargetGroup", arn := tg.targetGroupArn,
    name := name, region := region, account := account,
    metadata := [("targetType", AttrVal.other), ("protocol", AttrVal.str tg.protocol),
                 ("port", AttrVal.oint tg.port)] ++
      (match tg.vpcId with
       | some v => [("vpcId", AttrVal.str v)]
       | none => []) }

/-- The `for ... healthOutput.TargetHealthDescriptions` loop of
`discoverTargetGroup`: targets without a description are skipped; the
target-type switch picks the node shape (EC2Instance / IPTarget / Lambda)
and the default case skips; each kept target is added with a
`routes-to-target` edge from the target-group node. -/
def targetGroupTargets (tg : TargetGroupData) (tgNode : Node) :
    List TargetHealthDesc → Graph → List String → Graph × List String
  | [], g, neighbors => (g, neighbors)
  | th :: rest, g, neighbors =>
      match th.target with
      | none => targetGroupTargets tg tgNode rest g neighbors
      | some target =>
          let targetNode? : Option Node :=
            match tg.targetType with
            | .inst => some
                { id := target.id, type := "EC2Instance", name := target.id,
                  region := tgNode.region, account := tgNode.account,
                  metadata := [("port", AttrVal.oint target.port)] }
            | .ip => some
                { id := target.id, type := "IPTarget", name := target.id,
                  region := tgNode.region, account := tgNode.account,
                  metadata := [("port", AttrVal.oint target.port)] }
            | .lam => some
                { id := target.id, type := "Lambda", arn := target.id,
                  name := extractLambdaNameFromARN target.id,
                  region := tgNode.region, account := tgNode.account }
            | .otherTT => none
          match targetNode? with
          | none => targetGroupTargets tg tgNode rest g neighbors
          | some targetNode =>
              let g := g.addNode targetNode
              let g := g.addEdge
                { fromId := tgNode.id, toId := targetNode.id,
                  relationType := "routes-to-target",
                  evidence := { apiCall := "DescribeTargetHealth",
                                fields := [("TargetId", AttrVal.str target.id),
                                           ("TargetHealth", AttrVal.other)] } }
              targetGroupTargets tg tgNode rest g (neighbors ++ [targetNode.id])

/-- `Discoverer.discoverTargetGroup`: reuse an already-discovered target
group (just add the edge), otherwise describe it (required call), add the
node and edge, then — health being a secondary lookup whose failure only
stops target enumeration — add the targets. -/
def discoverTargetGroup (api : ELBApi) (tgARN : String) (sourceNode : Node)
    (g : Graph) : Except String (Graph × List String) :=
  if g.hasNode tgARN then
    .ok (g.addEdge
          { fromId := sourceNode.id, toId := tgARN,
            relationType := "forwards-to",
            evidence := { apiCall := "Listener/Rule DefaultActions",
                          fields := [("TargetGroupArn", AttrVal.str tgARN)] } },
        [tgARN])
  else
    match api.describeTargetGroups tgARN with
    | .error e => .error ("failed to describe target group: " ++ e)
    | .ok [] => .error ("target group not found: " ++ tgARN)
    | .ok (tg :: _) =>
        let tgNode := targetGroupToNode tg
        let g := g.addNode tgNode
        let g := g.addEdge
          { fromId := sourceNode.id, toId := tgNode.id,
            relationType := "forwards-to",
            evidence := { apiCall := "Listener/Rule DefaultActions",
                          fields := [("TargetGroupArn", AttrVal.str tgARN)] } }
        let neighbors := [tgNode.id]
        match api.describeTargetHealth tgARN with
        | .error _ => .ok (g, neighbors)
        | .ok ths => .ok (targetGroupTargets tg tgNode ths g neighbors)

/-- `route53types.HostedZone` fields the code reads. -/
structure HostedZone where
  id : Option String
  name : Option String
deriving Repr, DecidableEq

/-- `route53types.AliasTarget` fields the code reads. -/
structure AliasTargetData where
  dnsName : Option String
  hostedZoneId : Option String
  evaluateTargetHealth : Option Bool
deriving Repr, DecidableEq

/-- `route53types.ResourceRecordSet` fields the code reads (`rtype` is the
record's `Type`, an enum rendered as a string). -/
structure ResourceRecordSet where
  name : Option String
  rtype : String
  aliasTarget : Option AliasTargetData
  setIdentifier : Option String
deriving Repr, DecidableEq

/-- The Route53 calls, as oracles returning fully drained pages
(`listHostedZones`; `listResourceRecordSets` keyed by hosted-zone id). -/
structure Route53Api where
  listHostedZones : Except String (List HostedZone)
  listResourceRecordSets : String → Except String (List ResourceRecordSet)

/-- `Discoverer.findAliasRecordsInZone`: keep the alias records whose
normalized target DNS name matches. -/
def findAliasRecordsInZone (api : Route53Api) (hostedZoneID targetDNS : String) :
    Except String (List ResourceRecordSet) :=
  let targetDNS := goTrimSuf targetDNS "."
  let targetDNSWithDot := targetDNS ++ "."
  match api.listResourceRecordSets hostedZoneID with
  | .error e => .error ("failed to list resource record sets: " ++ e)
  | .ok records =>
      .ok (records.filter (fun record =>
        match record.aliasTarget with
        | none => false
        | some atgt =>
            match atgt.dnsName with
            | none => false
            | some dn => goTrimSuf dn "." == targetDNS || dn == targetDNSWithDot))

/-- `Discoverer.route53RecordToNode`. -/
def route53RecordToNode (record : ResourceRecordSet) (zone : HostedZone)
    (region account : String) : Node :=
  let name :=
    match record.name with
    | some n => goTrimSuf n "."
    | none => ""
  let metadata :=
    [("type", AttrVal.str record.rtype)] ++
    (match zone.id with
     | some zid => [("hostedZoneId", AttrVal.str zid)]
     | none => []) ++
    (match zone.name with
     | some zn => [("hostedZoneName", AttrVal.str (goTrimSuf zn "."))]
     | none => []) ++
    (match record.aliasTarget with
     | some _ => [("aliasTarget", AttrVal.other)]
     | none => []) ++
    (match record.setIdentifier with
     | some si => [("setIdentifier", AttrVal.str si)]
     | none => [])
  { id := "route53:" ++ zone.id.getD "" ++ ":" ++ name ++ ":" ++ record.rtype,
    type := "Route53Record", name := name, region := region, account := account,
    metadata := metadata }

/-- The `for ... records` loop of `discoverRoute53Aliases`: one
Route53Record node per matching record, with an `aliases-to` edge into the
target node (directionality inverted: the record points at the load
balancer). -/
def route53ZoneRecords (targetNode : Node) (zone : HostedZone) :
    List ResourceRecordSet → Graph → List String → Graph × List String
  | [], g, neighbors => (g, neighbors)
  | record :: rest, g, neighbors =>
      let recordNode := route53RecordToNode record zone targetNode.region targetNode.account
      let g := g.addNode recordNode
      let g := g.addEdge
        { fromId := recordNode.id, toId := targetNode.id,
          relationType := "aliases-to",
          evidence := { apiCall := "ListResourceRecordSets",
                        fields := [("Name", AttrVal.ostr record.name),
                                   ("Type", AttrVal.str record.rtype),
                                   ("AliasTarget", AttrVal.other),
                                   ("HostedZoneId", AttrVal.str (zone.id.getD "")),
                                   ("HostedZoneName", AttrVal.ostr zone.name)] } }
      route53ZoneRecords targetNode zone rest g (neighbors ++ [recordNode.id])

/-- The `for ... hostedZones` loop of `discoverRoute53Aliases`: zones
without an id are skipped; a zone whose record listing fails is logged and
skipped (warn-and-continue). -/
def route53Zones (api : Route53Api) (dnsName : String) (targetNode : Node) :
    List HostedZone → Graph → List String → Graph × List String
  | [], g, neighbors => (g, neighbors)
  | zone :: rest, g, neighbors =>
      match zone.id with
      | none => route53Zones api dnsName targetNode rest g neighbors
      | some zid =>
          match findAliasRecordsInZone api zid dnsName with
          | .error _ => route53Zones api dnsName targetNode rest g neighbors
          | .ok records =>
              let r := route53ZoneRecords targetNode zone records g neighbors
              route53Zones api dnsName targetNode rest r.1 r.2

/-- `Discoverer.discoverRoute53Aliases`: normalize the DNS name, list all
hosted zones (required call), then scan each zone. -/
def discoverRoute53Aliases (api : Route53Api) (dnsName : String) (targetNode : Node)
    (g : Graph) : Except String (Graph × List String) :=
  let dnsName := goTrimSuf dnsName "."
  match api.listHostedZones with
  | .error e => .error ("failed to list hosted zones: " ++ e)
  | .ok zones => .ok (route53Zones api dnsName targetNode zones g [])

/-- Adding a node never changes the edge list. -/
theorem Graph.edges_addNode (g : Graph) (n : Node) : (g.addNode n).edges = g.edges := by
  unfold Graph.addNode
  split <;> rfl

/-- Node presence is preserved by `addNode` (replacement keeps the id). -/
theorem Graph.hasNode_addNode_of (g : Graph) (n : Node) (x : String)
    (h : g.hasNode x = true) : (g.addNode n).hasNode x = true := by
  unfold Graph.hasNode at h
  unfold Graph.addNode Graph.hasNode
  split
  · simp only [List.any_eq_true] at h ⊢
    rcases h with ⟨m, hm, hmx⟩
    refine ⟨if m.id == n.id then n else m, List.mem_map.2 ⟨m, hm, rfl⟩, ?_⟩
    split
    · rename_i heq
      have h1 : m.id = n.id := by simpa using heq
      have h2 : m.id = x := by simpa using hmx
      simp [← h1, h2]
    · exact hmx
  · simp only [List.any_eq_true] at h ⊢
    rcases h with ⟨m, hm, hmx⟩
    exact ⟨m, List.mem_append_left _ hm, hmx⟩

/-- The inserted node's id is present after `addNode`. -/
theorem Graph.hasNode_addNode_self (g : Graph) (n : Node) :
    (g.addNode n).hasNode n.id = true := by
  unfold Graph.addNode Graph.hasNode
  split
  · rename_i hany
    simp only [List.any_eq_true] at hany ⊢
    rcases hany with ⟨m, hm, hmn⟩
    refine ⟨if m.id == n.id then n else m, List.mem_map.2 ⟨m, hm, rfl⟩, ?_⟩
    rw [if_pos hmn]
    simp
  · simp only [List.any_eq_true]
    exact ⟨n, List.mem_append_right _ (List.mem_singleton.2 rfl), by simp⟩

/-- A node found by `getNode` is present under its own id. -/
theorem Graph.hasNode_of_getNode {g : Graph} {i : String} {n : Node}
    (h : g.getNode i = some n) : g.hasNode n.id = true := by
  unfold Graph.getNode at h
  unfold Graph.hasNode
  have hmem := List.mem_of_find?_eq_some h
  simp only [List.any_eq_true]
  exact ⟨n, hmem, by simp⟩

/-- Every edge's endpoints are present in the node map: the dangling-edge
invariant of C9. -/
def Graph.edgeClosed (g : Graph) : Prop :=
  ∀ e ∈ g.edges, g.hasNode e.fromId = true ∧ g.hasNode e.toId = true

theorem edgeClosed_addNode {g : Graph} (n : Node) (h : g.edgeClosed) :
    (g.addNode n).edgeClosed := by
  intro e he
  rw [Graph.edges_addNode] at he
  rcases h e he with ⟨h1, h2⟩
  exact ⟨Graph.hasNode_addNode_of g n _ h1, Graph.hasNode_addNode_of g n _ h2⟩

theorem edgeClosed_addEdge {g : Graph} {e2 : Edge} (h : g.edgeClosed)
    (hf : g.hasNode e2.fromId = true) (ht : g.hasNode e2.toId = true) :
    (g.addEdge e2).edgeClosed := by
  intro e he
  simp only [Graph.addEdge, List.mem_append, List.mem_singleton] at he
  rcases he with he | he
  · exact h e he
  · subst he
    exact ⟨hf, ht⟩

theorem targetGroupTargets_closed (tg : TargetGroupData) (tgNode : Node) :
    ∀ (ths : List TargetHealthDesc) (g : Graph) (acc : List String),
      g.edgeClosed → g.hasNode tgNode.id = true →
      (targetGroupTargets tg tgNode ths g acc).1.edgeClosed := by
  intro ths
  induction ths with
  | nil => intro g acc h1 h2; exact h1
  | cons th rest ih =>
      intro g acc h1 h2
      unfold targetGroupTargets
      cases hth : th.target with
      | none => exact ih g acc h1 h2
      | some target =>
          simp only [hth]
          cases htt : tg.targetType <;> simp only [htt]
          case otherTT => exact ih g acc h1 h2
          all_goals
            refine ih _ _
              (edgeClosed_addEdge (edgeClosed_addNode _ h1)
                (Graph.hasNode_addNode_of g _ _ h2) (Graph.hasNode_addNode_self g _))
              (Graph.hasNode_addNode_of g _ _ h2)

/-- C9's target-group argument: a successful `discoverTargetGroup`
preserves the dangling-edge invariant given the source node present. -/
theorem discoverTargetGroup_closed (api : ELBApi) (tgARN : String) (src : Node)
    (g : Graph) (res : Graph × List String)
    (hsrc : g.hasNode src.id = true) (hcl : g.edgeClosed)
    (h : discoverTargetGroup api tgARN src g = .ok res) :
    res.1.edgeClosed := by
  unfold discoverTargetGroup at h
  split at h
  · rename_i hhas
    injection h with h2
    rw [← h2]
    exact edgeClosed_addEdge hcl hsrc hhas
  · rename_i hhas
    cases hd : api.describeTargetGroups tgARN with
    | error e => rw [hd] at h; exact Except.noConfusion h
    | ok tgs =>
        rw [hd] at h
        cases tgs with
        | nil => exact Except.noConfusion h
        | cons tg _ =>
            dsimp only at h
            have hcl2 : ((g.addNode (targetGroupToNode tg)).addEdge
                { fromId := src.id, toId := (targetGroupToNode tg).id,
                  relationType := "forwards-to",
                  evidence := { apiCall := "Listener/Rule DefaultActions",
                                fields := [("TargetGroupArn", AttrVal.str tgARN)] } }).edgeClosed :=
              edgeClosed_addEdge (edgeClosed_addNode _ hcl)
                (Graph.hasNode_addNode_of g _ _ hsrc) (Graph.hasNode_addNode_self g _)
            cases hh : api.describeTargetHealth tgARN with
            | error e2 =>
                rw [hh] at h
                injection h with h2
                rw [← h2]
                exact hcl2
            | ok ths =>
                rw [hh] at h
                injection h with h2
                rw [← h2]
                exact targetGroupTargets_closed tg (targetGroupToNode tg) ths _ _ hcl2
                  (Graph.hasNode_addNode_self g _)

theorem route53ZoneRecords_closed (targetNode : Node) (zone : HostedZone) :
    ∀ (records : List ResourceRecordSet) (g : Graph) (acc : List String),
      g.edgeClosed → g.hasNode targetNode.id = true →
      (route53ZoneRecords targetNode zone records g acc).1.edgeClosed ∧
      (route53ZoneRecords targetNode zone records g acc).1.hasNode targetNode.id = true := by
  intro records
  induction records with
  | nil => intro g acc h1 h2; exact ⟨h1, h2⟩
  | cons record rest ih =>
      intro g acc h1 h2
      unfold route53ZoneRecords
      refine ih _ _
        (edgeClosed_addEdge (edgeClosed_addNode _ h1)
          (Graph.hasNode_addNode_self g _) (Graph.hasNode_addNode_of g _ _ h2))
        (Graph.hasNode_addNode_of g _ _ h2)

theorem route53Zones_closed (api : Route53Api) (dnsName : String) (targetNode : Node) :
    ∀ (zones : List HostedZone) (g : Graph) (acc : List String),
      g.edgeClosed → g.hasNode targetNode.id = true →
      (route53Zones api dnsName targetNode zones g acc).1.edgeClosed ∧
      (route53Zones api dnsName targetNode zones g acc).1.hasNode targetNode.id = true := by
  intro zones
  induction zones with
  | nil => intro g acc h1 h2; exact ⟨h1, h2⟩
  | cons zone rest ih =>
      intro g acc h1 h2
      unfold route53Zones
      cases hz : zone.id with
      | none => exact ih g acc h1 h2
      | some zid =>
          simp only [hz]
          cases hrec : findAliasRecordsInZone api zid dnsName with
          | error e => exact ih g acc h1 h2
          | ok records =>
              have hr := route53ZoneRecords_closed targetNode zone records g acc h1 h2
              exact ih _ _ hr.1 hr.2

/-- C9's Route53 argument: `discoverRoute53Aliases` preserves the
dangling-edge invariant given the target node present. -/
theorem discoverRoute53Aliases_closed (api : Route53Api) (dnsName : String)
    (targetNode : Node) (g : Graph) (res : Graph × List String)
    (htgt : g.hasNode targetNode.id = true) (hcl : g.edgeClosed)
    (h : discoverRoute53Aliases api dnsName targetNode g = .ok res) :
    res.1.edgeClosed := by
  unfold discoverRoute53Aliases at h
  cases hz : api.listHostedZones with
  | error e => rw [hz] at h; exact Except.noConfusion h
  | ok zones =>
      rw [hz] at h
      injection h with h2
      rw [← h2]
      exact (route53Zones_closed api _ targetNode zones g [] hcl htgt).1

theorem runLevel_closed (ex : Expander)
    (hex : ∀ n g, g.hasNode n.id = true → g.edgeClosed → (ex n g).1.edgeClosed)
    (maxNodes : Int) :
    ∀ (fuel : Nat) (g : Graph) (q v : List String),
      g.edgeClosed → (runLevel ex maxNodes fuel g q v).1.edgeClosed := by
  intro fuel
  induction fuel with
  | zero => intro g q v h; exact h
  | succ f ih =>
      intro g q v h
      unfold runLevel
      split
      · exact h
      · cases q with
        | nil => exact h
        | cons nid rest =>
            dsimp only
            cases hg : g.getNode nid with
            | none => simp only [hg]; exact ih g rest v h
            | some node =>
                simp only [hg]
                exact ih _ _ _ (hex node g (Graph.hasNode_of_getNode hg) h)

theorem discoverLoop_closed (ex : Expander)
    (hex : ∀ n g, g.hasNode n.id = true → g.edgeClosed → (ex n g).1.edgeClosed)
    (maxNodes : Int) :
    ∀ (fuel : Nat) (g : Graph) (q v : List String),
      g.edgeClosed → (discoverLoop ex maxNodes fuel g q v).edgeClosed := by
  intro fuel
  induction fuel with
  | zero => intro g q v h; exact h
  | succ f ih =>
      intro g q v h
      unfold discoverLoop
      split
      · exact h
      · dsimp only
        split
        · exact runLevel_closed ex hex maxNodes _ g q v h
        · exact ih _ _ _ (runLevel_closed ex hex maxNodes _ g q v h)

/-- C9: in every graph produced by Discover (from the fresh graph the CLI
passes), every edge's source and target ids refer to nodes present in the
node map, provided each expander preserves that invariant when handed a
node present in the graph; and the embedded expanders do — a reused
endpoint is checked via hasNode, and a new endpoint is added by addNode in
the same operation that adds the edge (shown for `discoverTargetGroup` and
`discoverRoute53Aliases`, the expanders named by the claim). -/
theorem C9_no_dangling_edges :
    (∀ (e : Expanders) (r : Resolvers) (opts : Options) (rid : String) (gOut : Graph),
        (∀ n g, g.hasNode n.id = true → g.edgeClosed → (discoverNode e n g).1.edgeClosed) →
        Discover e r opts rid Graph.new = .ok gOut → gOut.edgeClosed)
    ∧ (∀ (api : ELBApi) (tgARN : String) (src : Node) (g : Graph) (res : Graph × List String),
        g.hasNode src.id = true → g.edgeClosed →
        discoverTargetGroup api tgARN src g = .ok res → res.1.edgeClosed)
    ∧ (∀ (api : Route53Api) (dnsName : String) (tgt : Node) (g : Graph)
          (res : Graph × List String),
        g.hasNode tgt.id = true → g.edgeClosed →
        discoverRoute53Aliases api dnsName tgt g = .ok res → res.1.edgeClosed) := by
  refine ⟨?_, ?_, ?_⟩
  · intro e r opts rid gOut hex h
    unfold Discover at h
    cases hid : identifyResource r rid with
    | error err => rw [hid] at h; exact Except.noConfusion h
    | ok startNode =>
        rw [hid] at h
        dsimp only at h
        injection h with h2
        rw [← h2]
        refine discoverLoop_closed (discoverNode e) hex opts.maxNodes _ _ _ _ ?_
        exact edgeClosed_addNode startNode (fun e2 he2 => absurd he2 (List.not_mem_nil e2))
  · intro api tgARN src g res h1 h2 h3
    exact discoverTargetGroup_closed api tgARN src g res h1 h2 h3
  · intro api dnsName tgt g res h1 h2 h3
    exact discoverRoute53Aliases_closed api dnsName tgt g res h1 h2 h3

/-- The ELB oracle of the C9 witness: one described target group with one
registered EC2-instance target. -/
def c9Api : ELBApi where
  describeTargetGroups := fun _ =>
    .ok [{ targetGroupArn := "arn:aws:elasticloadbalancing:us-east-1:123456789012:targetgroup/my-tg/abc",
           targetGroupName := some "my-tg", targetType := TargetTypeEnum.inst,
           protocol := "HTTP", port := some 80, vpcId := some "vpc-1" }]
  describeTargetHealth := fun _ =>
    .ok [{ target := some { id := "i-0123456789", port := some 80 } }]

/-- The listener source node of the C9 witness. -/
def c9Src : Node := { id := "listener-1", type := "Listener" }

/-- Witness for C9 at a concrete target-group expansion: a listener node
already in the graph, a described target group with one EC2 target; the
resulting graph has no dangling edge. -/
theorem C9_no_dangling_edges_witness :
    ∃ res : Graph × List String,
      discoverTargetGroup c9Api
          "arn:aws:elasticloadbalancing:us-east-1:123456789012:targetgroup/my-tg/abc"
          c9Src (Graph.new.addNode c9Src) = .ok res
      ∧ res.1.edgeClosed := by
  have hcl0 : (Graph.new.addNode c9Src).edgeClosed :=
    fun e2 he2 => absurd he2 (List.not_mem_nil e2)
  refine ⟨_, rfl, ?_⟩
  exact C9_no_dangling_edges.2.1 c9Api
    "arn:aws:elasticloadbalancing:us-east-1:123456789012:targetgroup/my-tg/abc"
    c9Src (Graph.new.addNode c9Src) _ (by rfl) hcl0 rfl

/-- Whether `sub` occurs in `l` (Go `strings.Contains` for a multi-character
substring, used by the event-source classifier). -/
def listContainsSub (sub : List Char) : List Char → Bool
  | [] => sub.isEmpty
  | c :: cs => listIsPre sub (c :: cs) || listContainsSub sub cs

/-- Go `strings.Contains(s, sub)` for an arbitrary substring. -/
def goContainsSub (s sub : String) : Bool :=
  listContainsSub sub.data s.data

/-- `Discoverer.extractNameFromARN` (part_005): last `/`-segment. -/
def extractNameFromARN (arn : String) : String :=
  let parts := goSplit arn '/'
  if parts.length > 0 then parts.getD (parts.length - 1) "" else arn

/-- `Discoverer.extractRoleNameFromARN` (part_005): last `/`-segment when
there are at least two. -/
def extractRoleNameFromARN (arn : String) : String :=
  let parts := goSplit arn '/'
  if parts.length ≥ 2 then parts.getD (parts.length - 1) "" else arn

/-- `ecstypes.LoadBalancer` (the service's load-balancer bindings): the
fields `discoverECSService` reads. -/
structure ECSLoadBalancerRef where
  targetGroupArn : Option String
  containerName : Option String
  containerPort : Option Int
deriving Repr, DecidableEq

/-- `ecstypes.AwsVpcConfiguration`.  The Go code guards on both
`NetworkConfiguration != nil` and `.AwsvpcConfiguration != nil`; the two
nil-checks collapse into one `Option` here. -/
structure AwsvpcConfiguration where
  securityGroups : List String
  subnets : List String
deriving Repr, DecidableEq

/-- `ecstypes.Service`: the fields `discoverECSService` reads.
`ClusterArn` and `ServiceName` are dereferenced unconditionally, so they
are required. -/
structure ServiceData where
  clusterArn : String
  serviceName : String
  taskDefinition : Option String
  loadBalancers : List ECSLoadBalancerRef
  networkConfiguration : Option AwsvpcConfiguration
deriving Repr, DecidableEq

/-- `ecstypes.TaskDefinition`: the fields the code reads (container and
sizing metadata are copied opaquely). -/
structure TaskDefData where
  taskDefinitionArn : String
  family : Option String
  revision : Int
  taskRoleArn : Option String
  executionRoleArn : Option String
deriving Repr, DecidableEq

/-- One `appscalingtypes.ScalableTarget`; only its presence is read. -/
structure ScalableTargetData where
  resourceId : Option String
deriving Repr, DecidableEq

/-- `appscalingtypes.ScalingPolicy`: `PolicyName` and `PolicyARN` are
dereferenced unconditionally in the evidence, so they are required;
`hasTargetTracking` records whether the target-tracking configuration was
present (its float payload is opaque). -/
structure ScalingPolicyData where
  policyName : String
  policyARN : String
  policyType : String
  hasTargetTracking : Bool
deriving Repr, DecidableEq

/-- The ECS and Application Auto Scaling calls `discoverECSService` makes,
as oracles returning drained responses. -/
structure ECSApi where
  describeServices : String → String → Except String (List ServiceData)
  describeTaskDefinition : String → Except String TaskDefData
  describeScalableTargets : String → Except String (List ScalableTargetData)
  describeScalingPolicies : String → Except String (List ScalingPolicyData)

/-- `Discoverer.taskDefinitionToNode` (container details opaque). -/
def taskDefinitionToNode (td : TaskDefData) (region account : String) : Node :=
  let name :=
    match td.family with
    | some f => f ++ ":" ++ toString td.revision
    | none => ""
  { id := td.taskDefinitionArn, type := "TaskDefinition", arn := td.taskDefinitionArn,
    name := name, region := region, account := account,
    metadata := [("family", AttrVal.ostr td.family),
                 ("revision", AttrVal.oint (some td.revision)),
                 ("cpu", AttrVal.other), ("memory", AttrVal.other),
                 ("networkMode", AttrVal.other),
                 ("requiresCompatibilities", AttrVal.other)] }

/-- `Discoverer.scalingPolicyToNode`. -/
def scalingPolicyToNode (policy : ScalingPolicyData) (region account : String) : Node :=
  { id := policy.policyARN, type := "ScalingPolicy", arn := policy.policyARN,
    name := policy.policyName, region := region, account := account,
    metadata := [("policyType", AttrVal.str policy.policyType)] ++
      (if policy.hasTargetTracking then [("targetValue", AttrVal.other)] else []) }

/-- The `// Discover IAM roles` task-role block of
`discoverTaskDefinition`. -/
def tdTaskRoleStage (td : TaskDefData) (tdNode sourceNode : Node)
    (st : Graph × List String) : Graph × List String :=
  match td.taskRoleArn with
  | none => st
  | some roleArn =>
      let roleNode : Node :=
        { id := roleArn, type := "IAMRole", arn := roleArn,
          name := extractRoleNameFromARN roleArn,
          region := sourceNode.region, account := sourceNode.account }
      let g2 := st.1.addNode roleNode
      let g2 := g2.addEdge
        { fromId := tdNode.id, toId := roleNode.id,
          relationType := "uses-task-role",
          evidence := { apiCall := "DescribeTaskDefinition",
                        fields := [("TaskRoleArn", AttrVal.str roleArn)] } }
      (g2, st.2 ++ [roleNode.id])

/-- The execution-role block of `discoverTaskDefinition`. -/
def tdExecutionRoleStage (td : TaskDefData) (tdNode sourceNode : Node)
    (st : Graph × List String) : Graph × List String :=
  match td.executionRoleArn with
  | none => st
  | some roleArn =>
      let roleNode : Node :=
        { id := roleArn, type := "IAMRole", arn := roleArn,
          name := extractRoleNameFromARN roleArn,
          region := sourceNode.region, account := sourceNode.account }
      let g2 := st.1.addNode roleNode
      let g2 := g2.addEdge
        { fromId := tdNode.id, toId := roleNode.id,
          relationType := "uses-execution-role",
          evidence := { apiCall := "DescribeTaskDefinition",
                        fields := [("ExecutionRoleArn", AttrVal.str roleArn)] } }
      (g2, st.2 ++ [roleNode.id])

/-- `Discoverer.discoverTaskDefinition`: reuse an already-discovered task
definition (just the edge), otherwise describe it (required call), add the
node and edge, then the two role blocks. -/
def discoverTaskDefinition (api : ECSApi) (taskDefARN : String) (sourceNode : Node)
    (g : Graph) : Except String (Graph × List String) :=
  if g.hasNode taskDefARN then
    .ok (g.addEdge
          { fromId := sourceNode.id, toId := taskDefARN,
            relationType := "uses-task-definition",
            evidence := { apiCall := "DescribeServices",
                          fields := [("TaskDefinition", AttrVal.str taskDefARN)] } },
        [taskDefARN])
  else
    match api.describeTaskDefinition taskDefARN with
    | .error e => .error ("failed to describe task definition: " ++ e)
    | .ok td =>
        let tdNode := taskDefinitionToNode td sourceNode.region sourceNode.account
        let g := g.addNode tdNode
        let g := g.addEdge
          { fromId := sourceNode.id, toId := tdNode.id,
            relationType := "uses-task-definition",
            evidence := { apiCall := "DescribeServices",
                          fields := [("TaskDefinition", AttrVal.str taskDefARN)] } }
        let st : Graph × List String := (g, [tdNode.id])
        let st := tdTaskRoleStage td tdNode sourceNode st
        .ok (tdExecutionRoleStage td tdNode sourceNode st)

/-- The `for ... policiesOutput.ScalingPolicies` loop of
`discoverECSScalingPolicies`. -/
def ecsScalingPolicies (serviceNode : Node) :
    List ScalingPolicyData → Graph → List String → Graph × List String
  | [], g, acc => (g, acc)
  | policy :: rest, g, acc =>
      let policyNode := scalingPolicyToNode policy serviceNode.region serviceNode.account
      let g := g.addNode policyNode
      let g := g.addEdge
        { fromId := serviceNode.id, toId := policyNode.id,
          relationType := "has-scaling-policy",
          evidence := { apiCall := "DescribeScalingPolicies",
                        fields := [("PolicyName", AttrVal.str policy.policyName),
                                   ("PolicyARN", AttrVal.str policy.policyARN)] } }
      ecsScalingPolicies serviceNode rest g (acc ++ [policyNode.id])

/-- `Discoverer.discoverECSScalingPolicies`: both describe calls are
required; no scalable target means no scaling configured. -/
def discoverECSScalingPolicies (api : ECSApi) (cluster serviceName : String)
    (serviceNode : Node) (g : Graph) : Except String (Graph × List String) :=
  let resourceID := "service/" ++ cluster ++ "/" ++ serviceName
  match api.describeScalableTargets resourceID with
  | .error e => .error ("failed to describe scalable targets: " ++ e)
  | .ok [] => .ok (g, [])
  | .ok (_ :: _) =>
      match api.describeScalingPolicies resourceID with
      | .error e => .error ("failed to describe scaling policies: " ++ e)
      | .ok policies => .ok (ecsScalingPolicies serviceNode policies g [])

/-- The cluster lookup at the top of `discoverECSService`: the metadata
entry (a string-typed `cluster` key) or, failing the type assertion, the
second `/`-segment of the ARN. -/
def ecsServiceCluster (node : Node) : Except String String :=
  match node.metadata.lookup "cluster" with
  | some (AttrVal.str c) => .ok c
  | _ =>
      let parts := goSplit node.arn '/'
      if parts.length ≥ 3 then .ok (parts.getD 1 "")
      else .error ("cannot determine cluster for ECS service: " ++ node.arn)

/-- The `// Discover load balancers` loop of `discoverECSService`:
bidirectional reconciliation — an already-discovered target group is
reused (edge only), otherwise the node is created with the edge. -/
def ecsTargetGroups (node : Node) :
    List ECSLoadBalancerRef → Graph → List String → Graph × List String
  | [], g, acc => (g, acc)
  | lb :: rest, g, acc =>
      match lb.targetGroupArn with
      | none => ecsTargetGroups node rest g acc
      | some tgArn =>
          if g.hasNode tgArn then
            let g := g.addEdge
              { fromId := node.id, toId := tgArn,
                relationType := "registers-with",
                evidence := { apiCall := "DescribeServices",
                              fields := [("TargetGroupArn", AttrVal.str tgArn),
                                         ("ContainerName", AttrVal.ostr lb.containerName),
                                         ("ContainerPort", AttrVal.oint lb.containerPort)] } }
            ecsTargetGroups node rest g (acc ++ [tgArn])
          else
            let tgNode : Node :=
              { id := tgArn, type := "TargetGroup", arn := tgArn,
                name := extractNameFromARN tgArn,
                region := node.region, account := node.account }
            let g := g.addNode tgNode
            let g := g.addEdge
              { fromId := node.id, toId := tgNode.id,
                relationType := "registers-with",
                evidence := { apiCall := "DescribeServices",
                              fields := [("TargetGroupArn", AttrVal.str tgArn),
                                         ("ContainerName", AttrVal.ostr lb.containerName),
                                         ("ContainerPort", AttrVal.oint lb.containerPort)] } }
            ecsTargetGroups node rest g (acc ++ [tgNode.id])

/-- The security-group half of `discoverECSService`'s network block. -/
def ecsSecurityGroups (node : Node) (awsvpc : AwsvpcConfiguration) :
    List String → Graph → List String → Graph × List String
  | [], g, acc => (g, acc)
  | sgID :: rest, g, acc =>
      let sgNode : Node :=
        { id := sgID, type := "SecurityGroup", name := sgID,
          region := node.region, account := node.account }
      let g := g.addNode sgNode
      let g := g.addEdge
        { fromId := node.id, toId := sgNode.id,
          relationType := "uses-security-group",
          evidence := { apiCall := "DescribeServices",
                        fields := [("SecurityGroups", AttrVal.strs awsvpc.securityGroups)] } }
      ecsSecurityGroups node awsvpc rest g (acc ++ [sgNode.id])

/-- The subnet half of `discoverECSService`'s network block. -/
def ecsSubnets (node : Node) (awsvpc : AwsvpcConfiguration) :
    List String → Graph → List String → Graph × List String
  | [], g, acc => (g, acc)
  | subnetID :: rest, g, acc =>
      let subnetNode : Node :=
        { id := subnetID, type := "Subnet", name := subnetID,
          region := node.region, account := node.account }
      let g := g.addNode subnetNode
      let g := g.addEdge
        { fromId := node.id, toId := subnetNode.id,
          relationType := "runs-in-subnet",
          evidence := { apiCall := "DescribeServices",
                        fields := [("Subnets", AttrVal.strs awsvpc.subnets)] } }
      ecsSubnets node awsvpc rest g (acc ++ [subnetNode.id])

/-- The `// Discover task definition` block of `discoverECSService`
(warn-and-continue on failure; the embedded call fails only before its own
mutations). -/
def ecsTaskDefStage (api : ECSApi) (node : Node) (svc : ServiceData)
    (st : Graph × List String) : Graph × List String :=
  match svc.taskDefinition with
  | none => st
  | some tdARN =>
      match discoverTaskDefinition api tdARN node st.1 with
      | .error _ => st
      | .ok r => (r.1, st.2 ++ r.2)

/-- The network-configuration block of `discoverECSService`. -/
def ecsNetworkStage (node : Node) (svc : ServiceData)
    (st : Graph × List String) : Graph × List String :=
  match svc.networkConfiguration with
  | none => st
  | some awsvpc =>
      let st2 := ecsSecurityGroups node awsvpc awsvpc.securityGroups st.1 st.2
      ecsSubnets node awsvpc awsvpc.subnets st2.1 st2.2

/-- The scaling-policies block of `discoverECSService`
(warn-and-continue). -/
def ecsScalingStage (api : ECSApi) (cluster : String) (svc : ServiceData)
    (node : Node) (st : Graph × List String) : Graph × List String :=
  match discoverECSScalingPolicies api cluster svc.serviceName node st.1 with
  | .error _ => st
  | .ok r => (r.1, st.2 ++ r.2)

/-- `Discoverer.discoverECSService`: resolve the cluster, describe the
service (required call), add the cluster node and `runs-in` edge, then the
task-definition, target-group, network and scaling blocks. -/
def discoverECSService (api : ECSApi) (node : Node) (g : Graph) :
    Except String (Graph × List String) :=
  match ecsServiceCluster node with
  | .error e => .error e
  | .ok cluster =>
      match api.describeServices cluster node.arn with
      | .error e => .error ("failed to describe ECS service: " ++ e)
      | .ok [] => .error ("ECS service not found: " ++ node.arn)
      | .ok (svc :: _) =>
          let clusterNode : Node :=
            { id := cluster, type := "ECSCluster", name := cluster,
              region := node.region, account := node.account }
          let g := g.addNode clusterNode
          let g := g.addEdge
            { fromId := node.id, toId := clusterNode.id,
              relationType := "runs-in",
              evidence := { apiCall := "DescribeServices",
                            fields := [("ClusterArn", AttrVal.str svc.clusterArn)] } }
          let st : Graph × List String := (g, [clusterNode.id])
          let st := ecsTaskDefStage api node svc st
          let st := ecsTargetGroups node svc.loadBalancers st.1 st.2
          let st := ecsNetworkStage node svc st
          .ok (ecsScalingStage api cluster svc node st)

/-- `lambdatypes.VpcConfigResponse`: the fields `discoverLambda` reads. -/
structure VpcConfigData where
  vpcId : Option String
  securityGroupIds : List String
  subnetIds : List String
deriving Repr, DecidableEq

/-- `lambdatypes.FunctionConfiguration`: the fields `discoverLambda`
reads (`DeadLetterConfig != nil && .TargetArn != nil` collapses into one
`Option`). -/
structure FunctionConfigData where
  role : Option String
  vpcConfig : Option VpcConfigData
  deadLetterTargetArn : Option String
deriving Repr, DecidableEq

/-- `lambdatypes.EventSourceMappingConfiguration`: the fields the code
reads (`DestinationConfig.OnFailure.Destination` nil-checks collapse). -/
structure EventSourceMappingData where
  eventSourceArn : Option String
  state : Option String
  batchSize : Option Int
  uuid : Option String
  onFailureDestination : Option String
deriving Repr, DecidableEq

/-- The destinations of a function event-invoke config. -/
structure EventInvokeDestinations where
  onSuccess : Option String
  onFailure : Option String
deriving Repr, DecidableEq

/-- The Lambda calls the expander makes, as oracles.  A missing event
invoke config is the error case of `getFunctionEventInvokeConfig` (the Go
code treats that error as "no config"). -/
structure LambdaApi where
  getFunction : String → Except String FunctionConfigData
  listEventSourceMappings : String → Except String (List EventSourceMappingData)
  getFunctionEventInvokeConfig : String → Except String (Option EventInvokeDestinations)

/-- The event-source classifier of `discoverEventSourceMappings`: first
matching substring wins, otherwise the generic `EventSource` tag. -/
def eventSourceType (arn : String) : String :=
  if goContainsSub arn ":sqs:" then "SQSQueue"
  else if goContainsSub arn ":dynamodb:" then "DynamoDBStream"
  else if goContainsSub arn ":kinesis:" then "KinesisStream"
  else if goContainsSub arn ":kafka:" then "KafkaCluster"
  else "EventSource"

/-- The `for ... output.EventSourceMappings` loop of
`discoverEventSourceMappings`: mappings without a source ARN are skipped;
each source gets a `triggers` edge into the function, and its on-failure
destination (when present) an `EventDestination` node plus a
`sends-failures-to` edge from the source. -/
def lambdaEventSources (lambdaNode : Node) :
    List EventSourceMappingData → Graph → List String → Graph × List String
  | [], g, acc => (g, acc)
  | mapping :: rest, g, acc =>
      match mapping.eventSourceArn with
      | none => lambdaEventSources lambdaNode rest g acc
      | some esArn =>
          let sourceNode : Node :=
            { id := esArn, type := eventSourceType esArn, arn := esArn,
              name := extractNameFromARN esArn,
              region := lambdaNode.region, account := lambdaNode.account,
              metadata := [("state", AttrVal.ostr mapping.state),
                           ("batchSize", AttrVal.oint mapping.batchSize)] ++
                (match mapping.uuid with
                 | some u => [("uuid", AttrVal.str u)]
                 | none => []) }
          let g := g.addNode sourceNode
          let g := g.addEdge
            { fromId := sourceNode.id, toId := lambdaNode.id,
              relationType := "triggers",
              evidence := { apiCall := "ListEventSourceMappings",
                            fields := [("EventSourceArn", AttrVal.str esArn),
                                       ("UUID", AttrVal.ostr mapping.uuid),
                                       ("State", AttrVal.ostr mapping.state)] } }
          let st : Graph × List String := (g, acc ++ [sourceNode.id])
          let st :=
            match mapping.onFailureDestination with
            | none => st
            | some dest =>
                let destNode : Node :=
                  { id := dest, type := "EventDestination", arn := dest,
                    name := extractNameFromARN dest,
                    region := lambdaNode.region, account := lambdaNode.account }
                let g2 := st.1.addNode destNode
                let g2 := g2.addEdge
                  { fromId := sourceNode.id, toId := destNode.id,
                    relationType := "sends-failures-to",
                    evidence := { apiCall := "ListEventSourceMappings",
                                  fields := [("Destination", AttrVal.str dest)] } }
                (g2, st.2 ++ [destNode.id])
          lambdaEventSources lambdaNode rest st.1 st.2

/-- `Discoverer.discoverEventSourceMappings`. -/
def discoverEventSourceMappings (api : LambdaApi) (functionARN : String)
    (lambdaNode : Node) (g : Graph) : Except String (Graph × List String) :=
  match api.listEventSourceMappings functionARN with
  | .error e => .error ("failed to list event source mappings: " ++ e)
  | .ok mappings => .ok (lambdaEventSources lambdaNode mappings g [])

/-- The OnSuccess block of `discoverFunctionDestinations`. -/
def lambdaOnSuccessStage (lambdaNode : Node) (destConfig : EventInvokeDestinations)
    (st : Graph × List String) : Graph × List String :=
  match destConfig.onSuccess with
  | none => st
  | some dest =>
      let destNode : Node :=
        { id := dest, type := "EventDestination", arn := dest,
          name := extractNameFromARN dest,
          region := lambdaNode.region, account := lambdaNode.account,
          metadata := [("destinationType", AttrVal.str "OnSuccess")] }
      let g2 := st.1.addNode destNode
      let g2 := g2.addEdge
        { fromId := lambdaNode.id, toId := destNode.id,
          relationType := "sends-success-to",
          evidence := { apiCall := "GetFunctionEventInvokeConfig",
                        fields := [("Destination", AttrVal.str dest)] } }
      (g2, st.2 ++ [destNode.id])

/-- The OnFailure block of `discoverFunctionDestinations`. -/
def lambdaOnFailureStage (lambdaNode : Node) (destConfig : EventInvokeDestinations)
    (st : Graph × List String) : Graph × List String :=
  match destConfig.onFailure with
  | none => st
  | some dest =>
      let destNode : Node :=
        { id := dest, type := "EventDestination", arn := dest,
          name := extractNameFromARN dest,
          region := lambdaNode.region, account := lambdaNode.account,
          metadata := [("destinationType", AttrVal.str "OnFailure")] }
      let g2 := st.1.addNode destNode
      let g2 := g2.addEdge
        { fromId := lambdaNode.id, toId := destNode.id,
          relationType := "sends-failures-to",
          evidence := { apiCall := "GetFunctionEventInvokeConfig",
                        fields := [("Destination", AttrVal.str dest)] } }
      (g2, st.2 ++ [destNode.id])

/-- `Discoverer.discoverFunctionDestinations`: a failing or missing event
invoke config is not an error (no destinations); otherwise the OnSuccess
and OnFailure blocks. -/
def discoverFunctionDestinations (api : LambdaApi) (functionName : String)
    (lambdaNode : Node) (g : Graph) : Except String (Graph × List String) :=
  match api.getFunctionEventInvokeConfig functionName with
  | .error _ => .ok (g, [])
  | .ok none => .ok (g, [])
  | .ok (some destConfig) =>
      let st : Graph × List String := (g, [])
      let st := lambdaOnSuccessStage lambdaNode destConfig st
      .ok (lambdaOnFailureStage lambdaNode destConfig st)

/-- The IAM execution-role block of `discoverLambda`. -/
def lambdaRoleStage (node : Node) (config : FunctionConfigData)
    (st : Graph × List String) : Graph × List String :=
  match config.role with
  | none => st
  | some role =>
      let roleNode : Node :=
        { id := role, type := "IAMRole", arn := role,
          name := extractRoleNameFromARN role,
          region := node.region, account := node.account }
      let g2 := st.1.addNode roleNode
      let g2 := g2.addEdge
        { fromId := node.id, toId := roleNode.id,
          relationType := "uses-execution-role",
          evidence := { apiCall := "GetFunction",
                        fields := [("Role", AttrVal.str role)] } }
      (g2, st.2 ++ [roleNode.id])

/-- The security-group half of `discoverLambda`'s VPC block. -/
def lambdaSecurityGroups (node : Node) :
    List String → Graph → List String → Graph × List String
  | [], g, acc => (g, acc)
  | sgID :: rest, g, acc =>
      let sgNode : Node :=
        { id := sgID, type := "SecurityGroup", name := sgID,
          region := node.region, account := node.account }
      let g := g.addNode sgNode
      let g := g.addEdge
        { fromId := node.id, toId := sgNode.id,
          relationType := "uses-security-group",
          evidence := { apiCall := "GetFunction",
                        fields := [("VpcConfig", AttrVal.other)] } }
      lambdaSecurityGroups node rest g (acc ++ [sgNode.id])

/-- The subnet half of `discoverLambda`'s VPC block. -/
def lambdaSubnets (node : Node) :
    List String → Graph → List String → Graph × List String
  | [], g, acc => (g, acc)
  | subnetID :: rest, g, acc =>
      let subnetNode : Node :=
        { id := subnetID, type := "Subnet", name := subnetID,
          region := node.region, account := node.account }
      let g := g.addNode subnetNode
      let g := g.addEdge
        { fromId := node.id, toId := subnetNode.id,
          relationType := "runs-in-subnet",
          evidence := { apiCall := "GetFunction",
                        fields := [("VpcConfig", AttrVal.other)] } }
      lambdaSubnets node rest g (acc ++ [subnetNode.id])

/-- The VPC-configuration block of `discoverLambda` (runs only when the
config and its VPC id are present). -/
def lambdaVpcStage (node : Node) (config : FunctionConfigData)
    (st : Graph × List String) : Graph × List String :=
  match config.vpcConfig with
  | none => st
  | some vc =>
      match vc.vpcId with
      | none => st
      | some _ =>
          let st2 := lambdaSecurityGroups node vc.securityGroupIds st.1 st.2
          lambdaSubnets node vc.subnetIds st2.1 st2.2

/-- The dead-letter-queue block of `discoverLambda`. -/
def lambdaDLQStage (node : Node) (config : FunctionConfigData)
    (st : Graph × List String) : Graph × List String :=
  match config.deadLetterTargetArn with
  | none => st
  | some dlq =>
      let dlqNode : Node :=
        { id := dlq, type := "DLQ", arn := dlq,
          name := extractNameFromARN dlq,
          region := node.region, account := node.account }
      let g2 := st.1.addNode dlqNode
      let g2 := g2.addEdge
        { fromId := node.id, toId := dlqNode.id,
          relationType := "sends-failures-to",
          evidence := { apiCall := "GetFunction",
                        fields := [("TargetArn", AttrVal.str dlq)] } }
      (g2, st.2 ++ [dlqNode.id])

/-- The event-source-mappings block of `discoverLambda`
(warn-and-continue; the embedded call fails only before its own
mutations). -/
def lambdaEventSourceStage (api : LambdaApi) (node : Node)
    (st : Graph × List String) : Graph × List String :=
  match discoverEventSourceMappings api node.arn node st.1 with
  | .error _ => st
  | .ok r => (r.1, st.2 ++ r.2)

/-- The destinations block of `discoverLambda` (warn-and-continue). -/
def lambdaDestinationsStage (api : LambdaApi) (functionName : String) (node : Node)
    (st : Graph × List String) : Graph × List String :=
  match discoverFunctionDestinations api functionName node st.1 with
  | .error _ => st
  | .ok r => (r.1, st.2 ++ r.2)

/-- `Discoverer.discoverLambda`: function name from the node (ARN
fallback), `GetFunction` is required, then the role, VPC, DLQ,
event-source and destination blocks. -/
def discoverLambda (api : LambdaApi) (node : Node) (g : Graph) :
    Except String (Graph × List String) :=
  let functionName := if node.name == "" then node.arn else node.name
  match api.getFunction functionName with
  | .error e => .error ("failed to get Lambda function: " ++ e)
  | .ok config =>
      let st : Graph × List String := (g, [])
      let st := lambdaRoleStage node config st
      let st := lambdaVpcStage node config st
      let st := lambdaDLQStage node config st
      let st := lambdaEventSourceStage api node st
      .ok (lambdaDestinationsStage api functionName node st)

/-- `elbv2types.AvailabilityZone`: the fields the code reads (`ZoneName`
is dereferenced only inside the `SubnetId != nil` branch, where the code
dereferences it unconditionally, so it is required). -/
structure AvailabilityZoneData where
  subnetId : Option String
  zoneName : String
deriving Repr, DecidableEq

/-- `elbv2types.LoadBalancer`: the fields `discoverLoadBalancer` reads. -/
structure LoadBalancerData where
  securityGroups : List String
  availabilityZones : List AvailabilityZoneData
  dnsName : Option String
deriving Repr, DecidableEq

/-- `elbv2types.Listener`: the fields the code reads.  `ListenerArn` and
`Port` are dereferenced unconditionally in the `has-listener` evidence, so
they are required (the `Port != nil` guard in `listenerToNode` is then
always taken); each entry of `defaultActions` is the action's
`TargetGroupArn` pointer, each entry of `certificates` the certificate's
`CertificateArn` pointer. -/
structure ListenerData where
  listenerArn : String
  port : Int
  protocol : String
  certificates : List (Option String)
  defaultActions : List (Option String)
deriving Repr, DecidableEq

/-- `elbv2types.Rule`: the fields `discoverListenerRules` reads; each entry
of `actions` is the action's `TargetGroupArn` pointer. -/
structure RuleData where
  isDefault : Option Bool
  actions : List (Option String)
deriving Repr, DecidableEq

/-- The ELBv2 calls of `discoverLoadBalancer` / `discoverListeners` /
`discoverListenerRules`, as oracles returning fully drained pages
(`describeListeners` keyed by load-balancer ARN, `describeRules` by
listener ARN).  The target-group calls stay in `ELBApi`. -/
structure ELBv2Api where
  describeLoadBalancers : String → Except String (List LoadBalancerData)
  describeListeners : String → Except String (List ListenerData)
  describeRules : String → Except String (List RuleData)

/-- `Discoverer.listenerToNode` (`%d` on an int renders as `toString`). -/
def listenerToNode (listener : ListenerData) (region account : String) : Node :=
  let name :=
    if listener.protocol == "" then ""
    else listener.protocol ++ ":" ++ toString listener.port
  { id := listener.listenerArn, type := "Listener", arn := listener.listenerArn,
    name := name, region := region, account := account,
    metadata := [("port", AttrVal.oint (some listener.port)),
                 ("protocol", AttrVal.str listener.protocol)] ++
      (match listener.certificates with
       | cert :: _ => [("certificateArn", AttrVal.ostr cert)]
       | [] => []) }

/-- The `for ... lb.SecurityGroups` loop of `discoverLoadBalancer`. -/
def lbSecurityGroups (node : Node) (lb : LoadBalancerData) :
    List String → Graph → List String → Graph × List String
  | [], g, neighbors => (g, neighbors)
  | sgID :: rest, g, neighbors =>
      let sgNode : Node :=
        { id := sgID, type := "SecurityGroup", name := sgID,
          region := node.region, account := node.account,
          metadata := [("attachedTo", AttrVal.str node.name)] }
      let g := g.addNode sgNode
      let g := g.addEdge
        { fromId := node.id, toId := sgNode.id,
          relationType := "uses-security-group",
          evidence := { apiCall := "DescribeLoadBalancers",
                        fields := [("SecurityGroups", AttrVal.strs lb.securityGroups)] } }
      lbSecurityGroups node lb rest g (neighbors ++ [sgNode.id])

/-- The `for ... lb.AvailabilityZones` loop of `discoverLoadBalancer`:
zones without a subnet id are skipped. -/
def lbSubnets (node : Node) :
    List AvailabilityZoneData → Graph → List String → Graph × List String
  | [], g, neighbors => (g, neighbors)
  | subnet :: rest, g, neighbors =>
      match subnet.subnetId with
      | none => lbSubnets node rest g neighbors
      | some sid =>
          let subnetNode : Node :=
            { id := sid, type := "Subnet", name := sid,
              region := node.region, account := node.account,
              metadata := [("availabilityZone", AttrVal.str subnet.zoneName)] }
          let g := g.addNode subnetNode
          let g := g.addEdge
            { fromId := node.id, toId := subnetNode.id,
              relationType := "uses-subnet",
              evidence := { apiCall := "DescribeLoadBalancers",
                            fields := [("AvailabilityZones", AttrVal.other)] } }
          lbSubnets node rest g (neighbors ++ [subnetNode.id])

/-- The `for ... actions` loop shared by a listener's default actions and a
rule's actions: nil target-group ARNs are skipped, and a failing
`discoverTargetGroup` is logged and skipped (warn-and-continue). -/
def listenerTargetGroups (api : ELBApi) (listenerNode : Node) :
    List (Option String) → Graph → List String → Graph × List String
  | [], g, neighbors => (g, neighbors)
  | none :: rest, g, neighbors => listenerTargetGroups api listenerNode rest g neighbors
  | some tgARN :: rest, g, neighbors =>
      match discoverTargetGroup api tgARN listenerNode g with
      | .error _ => listenerTargetGroups api listenerNode rest g neighbors
      | .ok r => listenerTargetGroups api listenerNode rest r.1 (neighbors ++ r.2)

/-- The `for ... output.Rules` loop of `discoverListenerRules`: the default
rule is skipped (already handled as the listener's default actions), the
rest process their actions like default actions. -/
def listenerRules (api : ELBApi) (listenerNode : Node) :
    List RuleData → Graph → List String → Graph × List String
  | [], g, neighbors => (g, neighbors)
  | rule :: rest, g, neighbors =>
      if rule.isDefault.getD false then listenerRules api listenerNode rest g neighbors
      else
        let r := listenerTargetGroups api listenerNode rule.actions g neighbors
        listenerRules api listenerNode rest r.1 r.2

/-- `Discoverer.discoverListenerRules`. -/
def discoverListenerRules (elbv2 : ELBv2Api) (elb : ELBApi) (listenerArn : String)
    (listenerNode : Node) (g : Graph) : Except String (Graph × List String) :=
  match elbv2.describeRules listenerArn with
  | .error e => .error ("failed to describe rules: " ++ e)
  | .ok rules => .ok (listenerRules elb listenerNode rules g [])

/-- The rules block of a single listener iteration in `discoverListeners`
(warn-and-continue on failure). -/
def listenerRulesStage (elbv2 : ELBv2Api) (elb : ELBApi) (listenerArn : String)
    (listenerNode : Node) (st : Graph × List String) : Graph × List String :=
  match discoverListenerRules elbv2 elb listenerArn listenerNode st.1 with
  | .error _ => st
  | .ok r => (r.1, st.2 ++ r.2)

/-- The `for ... output.Listeners` loop of `discoverListeners`: each
listener gets a node and a `has-listener` edge, then its default actions'
target groups and (warn-and-continue) its rules. -/
def lbListeners (elbv2 : ELBv2Api) (elb : ELBApi) (lbNode : Node) :
    List ListenerData → Graph → List String → Graph × List String
  | [], g, neighbors => (g, neighbors)
  | listener :: rest, g, neighbors =>
      let listenerNode := listenerToNode listener lbNode.region lbNode.account
      let g := g.addNode listenerNode
      let g := g.addEdge
        { fromId := lbNode.id, toId := listenerNode.id,
          relationType := "has-listener",
          evidence := { apiCall := "DescribeListeners",
                        fields := [("ListenerArn", AttrVal.str listener.listenerArn),
                                   ("Port", AttrVal.oint (some listener.port)),
                                   ("Protocol", AttrVal.str listener.protocol)] } }
      let st : Graph × List String := (g, neighbors ++ [listenerNode.id])
      let st := listenerTargetGroups elb listenerNode listener.defaultActions st.1 st.2
      let st := listenerRulesStage elbv2 elb listener.listenerArn listenerNode st
      lbListeners elbv2 elb lbNode rest st.1 st.2

/-- `Discoverer.discoverListeners`. -/
def discoverListeners (elbv2 : ELBv2Api) (elb : ELBApi) (lbNode : Node) (g : Graph) :
    Except String (Graph × List String) :=
  match elbv2.describeListeners lbNode.arn with
  | .error e => .error ("failed to describe listeners: " ++ e)
  | .ok listeners => .ok (lbListeners elbv2 elb lbNode listeners g [])

/-- The listeners block of `discoverLoadBalancer` (warn-and-continue). -/
def lbListenersStage (elbv2 : ELBv2Api) (elb : ELBApi) (node : Node)
    (st : Graph × List String) : Graph × List String :=
  match discoverListeners elbv2 elb node st.1 with
  | .error _ => st
  | .ok r => (r.1, st.2 ++ r.2)

/-- The Route53-upstream block of `discoverLoadBalancer`: runs only when
the balancer has a DNS name, and a failure is logged and ignored. -/
def lbRoute53Stage (r53 : Route53Api) (lb : LoadBalancerData) (node : Node)
    (st : Graph × List String) : Graph × List String :=
  match lb.dnsName with
  | none => st
  | some dns =>
      match discoverRoute53Aliases r53 dns node st.1 with
      | .error _ => st
      | .ok r => (r.1, st.2 ++ r.2)

/-- `Discoverer.discoverLoadBalancer`: describe the balancer (required
call; empty result is an error), then the security-group and subnet loops,
the listeners block, and the Route53 block. -/
def discoverLoadBalancer (elbv2 : ELBv2Api) (elb : ELBApi) (r53 : Route53Api)
    (node : Node) (g : Graph) : Except String (Graph × List String) :=
  match elbv2.describeLoadBalancers node.arn with
  | .error e => .error ("failed to describe load balancer: " ++ e)
  | .ok [] => .error ("load balancer not found: " ++ node.arn)
  | .ok (lb :: _) =>
      let st : Graph × List String := (g, [])
      let st := lbSecurityGroups node lb lb.securityGroups st.1 st.2
      let st := lbSubnets node lb.availabilityZones st.1 st.2
      let st := lbListenersStage elbv2 elb node st
      .ok (lbRoute53Stage r53 lb node st)

/-- `Discoverer.discoverRDS`: the type-tag dispatch between the instance
and cluster expanders. -/
def discoverRDSDispatch (api : RDSApi) (opts : Options) (node : Node) (g : Graph) :
    Except String (Graph × List String) :=
  if node.type == "RDSInstance" then discoverRDSInstance api opts node g
  else if node.type == "RDSCluster" then discoverRDSCluster api opts node g
  else .error ("unknown RDS type: " ++ node.type)

/-- The AWS clients bundle (`d.clients`), one oracle structure per
service. -/
structure AWSApis where
  elb : ELBApi
  elbv2 : ELBv2Api
  route53 : Route53Api
  ecs : ECSApi
  lam : LambdaApi
  rds : RDSApi

/-- The expander table the shipped `Discoverer` dispatches to: each
embedded expander, adapted to the orchestrator's calling convention.  A
failed expander leaves the graph untouched and reports the error flag,
which is faithful because every embedded expander fails only before its
first own mutation. -/
def shippedExpanders (apis : AWSApis) (opts : Options) : Expanders where
  discoverLoadBalancer := fun node g =>
    match discoverLoadBalancer apis.elbv2 apis.elb apis.route53 node g with
    | .error _ => (g, [], true)
    | .ok r => (r.1, r.2, false)
  discoverECSService := fun node g =>
    match discoverECSService apis.ecs node g with
    | .error _ => (g, [], true)
    | .ok r => (r.1, r.2, false)
  discoverLambda := fun node g =>
    match discoverLambda apis.lam node g with
    | .error _ => (g, [], true)
    | .ok r => (r.1, r.2, false)
  discoverRDS := fun node g =>
    match discoverRDSDispatch apis.rds opts node g with
    | .error _ => (g, [], true)
    | .ok r => (r.1, r.2, false)

theorem targetGroupTargets_neh (tg : TargetGroupData) (tgNode : Node) :
    ∀ (ths : List TargetHealthDesc) (g : Graph) (acc : List String),
      newEdgesNonHeuristic g (targetGroupTargets tg tgNode ths g acc).1 := by
  intro ths
  induction ths with
  | nil => intro g acc; exact neh_refl g
  | cons th rest ih =>
      intro g acc
      unfold targetGroupTargets
      cases hth : th.target with
      | none => exact ih g acc
      | some target =>
          simp only [hth]
          cases htt : tg.targetType <;> simp only [htt]
          case otherTT => exact ih g acc
          all_goals
            exact neh_trans (neh_trans (neh_addNode g _) (neh_addEdge _ rfl)) (ih _ _)

/-- C7's target-group argument: a successful `discoverTargetGroup` only
ever creates non-heuristic edges. -/
theorem discoverTargetGroup_neh (api : ELBApi) (tgARN : String) (src : Node)
    (g : Graph) (res : Graph × List String)
    (h : discoverTargetGroup api tgARN src g = .ok res) :
    newEdgesNonHeuristic g res.1 := by
  unfold discoverTargetGroup at h
  split at h
  · injection h with h2
    rw [← h2]
    exact neh_addEdge _ rfl
  · cases hd : api.describeTargetGroups tgARN with
    | error e => rw [hd] at h; exact Except.noConfusion h
    | ok tgs =>
        rw [hd] at h
        cases tgs with
        | nil => exact Except.noConfusion h
        | cons tg _ =>
            dsimp only at h
            cases hh : api.describeTargetHealth tgARN with
            | error e2 =>
                rw [hh] at h
                injection h with h2
                rw [← h2]
                exact neh_trans (neh_addNode g _) (neh_addEdge _ rfl)
            | ok ths =>
                rw [hh] at h
                injection h with h2
                rw [← h2]
                exact neh_trans (neh_trans (neh_addNode g _) (neh_addEdge _ rfl))
                  (targetGroupTargets_neh tg _ ths _ _)

theorem route53ZoneRecords_neh (targetNode : Node) (zone : HostedZone) :
    ∀ (records : List ResourceRecordSet) (g : Graph) (acc : List String),
      newEdgesNonHeuristic g (route53ZoneRecords targetNode zone records g acc).1 := by
  intro records
  induction records with
  | nil => intro g acc; exact neh_refl g
  | cons record rest ih =>
      intro g acc
      unfold route53ZoneRecords
      exact neh_trans (neh_trans (neh_addNode g _) (neh_addEdge _ rfl)) (ih _ _)

theorem route53Zones_neh (api : Route53Api) (dnsName : String) (targetNode : Node) :
    ∀ (zones : List HostedZone) (g : Graph) (acc : List String),
      newEdgesNonHeuristic g (route53Zones api dnsName targetNode zones g acc).1 := by
  intro zones
  induction zones with
  | nil => intro g acc; exact neh_refl g
  | cons zone rest ih =>
      intro g acc
      unfold route53Zones
      cases hz : zone.id with
      | none => exact ih g acc
      | some zid =>
          simp only [hz]
          cases hrec : findAliasRecordsInZone api zid dnsName with
          | error e => exact ih g acc
          | ok records =>
              exact neh_trans (route53ZoneRecords_neh targetNode zone records g acc) (ih _ _)

/-- C7's Route53 argument: a successful `discoverRoute53Aliases` only ever
creates non-heuristic edges. -/
theorem discoverRoute53Aliases_neh (api : Route53Api) (dnsName : String)
    (targetNode : Node) (g : Graph) (res : Graph × List String)
    (h : discoverRoute53Aliases api dnsName targetNode g = .ok res) :
    newEdgesNonHeuristic g res.1 := by
  unfold discoverRoute53Aliases at h
  cases hz : api.listHostedZones with
  | error e => rw [hz] at h; exact Except.noConfusion h
  | ok zones =>
      rw [hz] at h
      injection h with h2
      rw [← h2]
      exact route53Zones_neh api _ targetNode zones g []

theorem tdTaskRoleStage_neh (td : TaskDefData) (tdNode sourceNode : Node)
    (st : Graph × List String) :
    newEdgesNonHeuristic st.1 (tdTaskRoleStage td tdNode sourceNode st).1 := by
  unfold tdTaskRoleStage
  cases hr : td.taskRoleArn with
  | none => exact neh_refl st.1
  | some roleArn =>
      simp only [hr]
      exact neh_trans (neh_addNode st.1 _) (neh_addEdge _ rfl)

theorem tdExecutionRoleStage_neh (td : TaskDefData) (tdNode sourceNode : Node)
    (st : Graph × List String) :
    newEdgesNonHeuristic st.1 (tdExecutionRoleStage td tdNode sourceNode st).1 := by
  unfold tdExecutionRoleStage
  cases hr : td.executionRoleArn with
  | none => exact neh_refl st.1
  | some roleArn =>
      simp only [hr]
      exact neh_trans (neh_addNode st.1 _) (neh_addEdge _ rfl)

theorem discoverTaskDefinition_neh (api : ECSApi) (taskDefARN : String)
    (sourceNode : Node) (g : Graph) (res : Graph × List String)
    (h : discoverTaskDefinition api taskDefARN sourceNode g = .ok res) :
    newEdgesNonHeuristic g res.1 := by
  unfold discoverTaskDefinition at h
  split at h
  · injection h with h2
    rw [← h2]
    exact neh_addEdge _ rfl
  · cases hd : api.describeTaskDefinition taskDefARN with
    | error e => rw [hd] at h; exact Except.noConfusion h
    | ok td =>
        rw [hd] at h
        dsimp only at h
        injection h with h2
        rw [← h2]
        exact neh_trans (neh_trans (neh_addNode g _) (neh_addEdge _ rfl))
          (neh_trans (tdTaskRoleStage_neh td _ sourceNode _)
            (tdExecutionRoleStage_neh td _ sourceNode _))

theorem ecsScalingPolicies_neh (serviceNode : Node) :
    ∀ (policies : List ScalingPolicyData) (g : Graph) (acc : List String),
      newEdgesNonHeuristic g (ecsScalingPolicies serviceNode policies g acc).1 := by
  intro policies
  induction policies with
  | nil => intro g acc; exact neh_refl g
  | cons policy rest ih =>
      intro g acc
      unfold ecsScalingPolicies
      exact neh_trans (neh_trans (neh_addNode g _) (neh_addEdge _ rfl)) (ih _ _)

theorem discoverECSScalingPolicies_neh (api : ECSApi) (cluster serviceName : String)
    (serviceNode : Node) (g : Graph) (res : Graph × List String)
    (h : discoverECSScalingPolicies api cluster serviceName serviceNode g = .ok res) :
    newEdgesNonHeuristic g res.1 := by
  unfold discoverECSScalingPolicies at h
  dsimp only at h
  cases ht : api.describeScalableTargets ("service/" ++ cluster ++ "/" ++ serviceName) with
  | error e => rw [ht] at h; exact Except.noConfusion h
  | ok targets =>
      rw [ht] at h
      cases targets with
      | nil =>
          injection h with h2
          rw [← h2]
          exact neh_refl g
      | cons t ts =>
          dsimp only at h
          cases hp : api.describeScalingPolicies
              ("service/" ++ cluster ++ "/" ++ serviceName) with
          | error e => rw [hp] at h; exact Except.noConfusion h
          | ok policies =>
              rw [hp] at h
              injection h with h2
              rw [← h2]
              exact ecsScalingPolicies_neh serviceNode policies g []

theorem ecsTargetGroups_neh (node : Node) :
    ∀ (lbs : List ECSLoadBalancerRef) (g : Graph) (acc : List String),
      newEdgesNonHeuristic g (ecsTargetGroups node lbs g acc).1 := by
  intro lbs
  induction lbs with
  | nil => intro g acc; exact neh_refl g
  | cons lb rest ih =>
      intro g acc
      unfold ecsTargetGroups
      cases htg : lb.targetGroupArn with
      | none => exact ih g acc
      | some tgArn =>
          simp only [htg]
          split
          · exact neh_trans (neh_addEdge _ rfl) (ih _ _)
          · exact neh_trans (neh_trans (neh_addNode g _) (neh_addEdge _ rfl)) (ih _ _)

theorem ecsSecurityGroups_neh (node : Node) (awsvpc : AwsvpcConfiguration) :
    ∀ (sgs : List String) (g : Graph) (acc : List String),
      newEdgesNonHeuristic g (ecsSecurityGroups node awsvpc sgs g acc).1 := by
  intro sgs
  induction sgs with
  | nil => intro g acc; exact neh_refl g
  | cons sg rest ih =>
      intro g acc
      unfold ecsSecurityGroups
      exact neh_trans (neh_trans (neh_addNode g _) (neh_addEdge _ rfl)) (ih _ _)

theorem ecsSubnets_neh (node : Node) (awsvpc : AwsvpcConfiguration) :
    ∀ (subnets : List String) (g : Graph) (acc : List String),
      newEdgesNonHeuristic g (ecsSubnets node awsvpc subnets g acc).1 := by
  intro subnets
  induction subnets with
  | nil => intro g acc; exact neh_refl g
  | cons subnet rest ih =>
      intro g acc
      unfold ecsSubnets
      exact neh_trans (neh_trans (neh_addNode g _) (neh_addEdge _ rfl)) (ih _ _)

theorem ecsTaskDefStage_neh (api : ECSApi) (node : Node) (svc : ServiceData)
    (st : Graph × List String) :
    newEdgesNonHeuristic st.1 (ecsTaskDefStage api node svc st).1 := by
  unfold ecsTaskDefStage
  cases htd : svc.taskDefinition with
  | none => exact neh_refl st.1
  | some tdARN =>
      simp only [htd]
      cases hr : discoverTaskDefinition api tdARN node st.1 with
      | error e => exact neh_refl st.1
      | ok r => exact discoverTaskDefinition_neh api tdARN node st.1 r hr

theorem ecsNetworkStage_neh (node : Node) (svc : ServiceData)
    (st : Graph × List String) :
    newEdgesNonHeuristic st.1 (ecsNetworkStage node svc st).1 := by
  unfold ecsNetworkStage
  cases hn : svc.networkConfiguration with
  | none => exact neh_refl st.1
  | some awsvpc =>
      simp only [hn]
      exact neh_trans (ecsSecurityGroups_neh node awsvpc awsvpc.securityGroups _ _)
        (ecsSubnets_neh node awsvpc awsvpc.subnets _ _)

theorem ecsScalingStage_neh (api : ECSApi) (cluster : String) (svc : ServiceData)
    (node : Node) (st : Graph × List String) :
    newEdgesNonHeuristic st.1 (ecsScalingStage api cluster svc node st).1 := by
  unfold ecsScalingStage
  cases hr : discoverECSScalingPolicies api cluster svc.serviceName node st.1 with
  | error e => exact neh_refl st.1
  | ok r => exact discoverECSScalingPolicies_neh api cluster svc.serviceName node st.1 r hr

/-- C7's ECS argument: a successful `discoverECSService` only ever creates
non-heuristic edges. -/
theorem discoverECSService_neh (api : ECSApi) (node : Node) (g : Graph)
    (res : Graph × List String) (h : discoverECSService api node g = .ok res) :
    newEdgesNonHeuristic g res.1 := by
  unfold discoverECSService at h
  cases hc : ecsServiceCluster node with
  | error e => rw [hc] at h; exact Except.noConfusion h
  | ok cluster =>
      rw [hc] at h
      dsimp only at h
      cases hd : api.describeServices cluster node.arn with
      | error e => rw [hd] at h; exact Except.noConfusion h
      | ok svcs =>
          rw [hd] at h
          cases svcs with
          | nil => exact Except.noConfusion h
          | cons svc _ =>
              dsimp only at h
              injection h with h2
              rw [← h2]
              exact neh_trans (neh_trans (neh_addNode g _) (neh_addEdge _ rfl))
                (neh_trans (ecsTaskDefStage_neh api node svc _)
                  (neh_trans (ecsTargetGroups_neh node svc.loadBalancers _ _)
                    (neh_trans (ecsNetworkStage_neh node svc _)
                      (ecsScalingStage_neh api cluster svc node _))))

theorem lambdaEventSources_neh (lambdaNode : Node) :
    ∀ (mappings : List EventSourceMappingData) (g : Graph) (acc : List String),
      newEdgesNonHeuristic g (lambdaEventSources lambdaNode mappings g acc).1 := by
  intro mappings
  induction mappings with
  | nil => intro g acc; exact neh_refl g
  | cons mapping rest ih =>
      intro g acc
      unfold lambdaEventSources
      cases hes : mapping.eventSourceArn with
      | none => exact ih g acc
      | some esArn =>
          simp only [hes]
          cases hof : mapping.onFailureDestination with
          | none =>
              simp only [hof]
              exact neh_trans (neh_trans (neh_addNode g _) (neh_addEdge _ rfl)) (ih _ _)
          | some dest =>
              simp only [hof]
              exact neh_trans
                (neh_trans (neh_trans (neh_addNode g _) (neh_addEdge _ rfl))
                  (neh_trans (neh_addNode _ _) (neh_addEdge _ rfl)))
                (ih _ _)

theorem discoverEventSourceMappings_neh (api : LambdaApi) (functionARN : String)
    (lambdaNode : Node) (g : Graph) (res : Graph × List String)
    (h : discoverEventSourceMappings api functionARN lambdaNode g = .ok res) :
    newEdgesNonHeuristic g res.1 := by
  unfold discoverEventSourceMappings at h
  cases hm : api.listEventSourceMappings functionARN with
  | error e => rw [hm] at h; exact Except.noConfusion h
  | ok mappings =>
      rw [hm] at h
      injection h with h2
      rw [← h2]
      exact lambdaEventSources_neh lambdaNode mappings g []

theorem lambdaOnSuccessStage_neh (lambdaNode : Node)
    (destConfig : EventInvokeDestinations) (st : Graph × List String) :
    newEdgesNonHeuristic st.1 (lambdaOnSuccessStage lambdaNode destConfig st).1 := by
  unfold lambdaOnSuccessStage
  cases hs : destConfig.onSuccess with
  | none => exact neh_refl st.1
  | some dest =>
      simp only [hs]
      exact neh_trans (neh_addNode st.1 _) (neh_addEdge _ rfl)

theorem lambdaOnFailureStage_neh (lambdaNode : Node)
    (destConfig : EventInvokeDestinations) (st : Graph × List String) :
    newEdgesNonHeuristic st.1 (lambdaOnFailureStage lambdaNode destConfig st).1 := by
  unfold lambdaOnFailureStage
  cases hs : destConfig.onFailure with
  | none => exact neh_refl st.1
  | some dest =>
      simp only [hs]
      exact neh_trans (neh_addNode st.1 _) (neh_addEdge _ rfl)

theorem discoverFunctionDestinations_neh (api : LambdaApi) (functionName : String)
    (lambdaNode : Node) (g : Graph) (res : Graph × List String)
    (h : discoverFunctionDestinations api functionName lambdaNode g = .ok res) :
    newEdgesNonHeuristic g res.1 := by
  unfold discoverFunctionDestinations at h
  cases hc : api.getFunctionEventInvokeConfig functionName with
  | error e =>
      rw [hc] at h
      injection h with h2
      rw [← h2]
      exact neh_refl g
  | ok dc =>
      rw [hc] at h
      cases dc with
      | none =>
          injection h with h2
          rw [← h2]
          exact neh_refl g
      | some destConfig =>
          dsimp only at h
          injection h with h2
          rw [← h2]
          exact neh_trans (lambdaOnSuccessStage_neh lambdaNode destConfig _)
            (lambdaOnFailureStage_neh lambdaNode destConfig _)

theorem lambdaRoleStage_neh (node : Node) (config : FunctionConfigData)
    (st : Graph × List String) :
    newEdgesNonHeuristic st.1 (lambdaRoleStage node config st).1 := by
  unfold lambdaRoleStage
  cases hr : config.role with
  | none => exact neh_refl st.1
  | some role =>
      simp only [hr]
      exact neh_trans (neh_addNode st.1 _) (neh_addEdge _ rfl)

theorem lambdaSecurityGroups_neh (node : Node) :
    ∀ (sgs : List String) (g : Graph) (acc : List String),
      newEdgesNonHeuristic g (lambdaSecurityGroups node sgs g acc).1 := by
  intro sgs
  induction sgs with
  | nil => intro g acc; exact neh_refl g
  | cons sg rest ih =>
      intro g acc
      unfold lambdaSecurityGroups
      exact neh_trans (neh_trans (neh_addNode g _) (neh_addEdge _ rfl)) (ih _ _)

theorem lambdaSubnets_neh (node : Node) :
    ∀ (subnets : List String) (g : Graph) (acc : List String),
      newEdgesNonHeuristic g (lambdaSubnets node subnets g acc).1 := by
  intro subnets
  induction subnets with
  | nil => intro g acc; exact neh_refl g
  | cons subnet rest ih =>
      intro g acc
      unfold lambdaSubnets
      exact neh_trans (neh_trans (neh_addNode g _) (neh_addEdge _ rfl)) (ih _ _)

theorem lambdaVpcStage_neh (node : Node) (config : FunctionConfigData)
    (st : Graph × List String) :
    newEdgesNonHeuristic st.1 (lambdaVpcStage node config st).1 := by
  unfold lambdaVpcStage
  cases hv : config.vpcConfig with
  | none => exact neh_refl st.1
  | some vc =>
      simp only [hv]
      cases hid : vc.vpcId with
      | none => exact neh_refl st.1
      | some vid =>
          simp only [hid]
          exact neh_trans (lambdaSecurityGroups_neh node vc.securityGroupIds _ _)
            (lambdaSubnets_neh node vc.subnetIds _ _)

theorem lambdaDLQStage_neh (node : Node) (config : FunctionConfigData)
    (st : Graph × List String) :
    newEdgesNonHeuristic st.1 (lambdaDLQStage node config st).1 := by
  unfold lambdaDLQStage
  cases hd : config.deadLetterTargetArn with
  | none => exact neh_refl st.1
  | some dlq =>
      simp only [hd]
      exact neh_trans (neh_addNode st.1 _) (neh_addEdge _ rfl)

theorem lambdaEventSourceStage_neh (api : LambdaApi) (node : Node)
    (st : Graph × List String) :
    newEdgesNonHeuristic st.1 (lambdaEventSourceStage api node st).1 := by
  unfold lambdaEventSourceStage
  cases hr : discoverEventSourceMappings api node.arn node st.1 with
  | error e => exact neh_refl st.1
  | ok r => exact discoverEventSourceMappings_neh api node.arn node st.1 r hr

theorem lambdaDestinationsStage_neh (api : LambdaApi) (functionName : String)
    (node : Node) (st : Graph × List String) :
    newEdgesNonHeuristic st.1 (lambdaDestinationsStage api functionName node st).1 := by
  unfold lambdaDestinationsStage
  cases hr : discoverFunctionDestinations api functionName node st.1 with
  | error e => exact neh_refl st.1
  | ok r => exact discoverFunctionDestinations_neh api functionName node st.1 r hr

/-- C7's Lambda argument: a successful `discoverLambda` only ever creates
non-heuristic edges. -/
theorem discoverLambda_neh (api : LambdaApi) (node : Node) (g : Graph)
    (res : Graph × List String) (h : discoverLambda api node g = .ok res) :
    newEdgesNonHeuristic g res.1 := by
  unfold discoverLambda at h
  dsimp only at h
  cases hd : api.getFunction (if node.name == "" then node.arn else node.name) with
  | error e => rw [hd] at h; exact Except.noConfusion h
  | ok config =>
      rw [hd] at h
      dsimp only at h
      injection h with h2
      rw [← h2]
      exact neh_trans (lambdaRoleStage_neh node config _)
        (neh_trans (lambdaVpcStage_neh node config _)
          (neh_trans (lambdaDLQStage_neh node config _)
            (neh_trans (lambdaEventSourceStage_neh api node _)
              (lambdaDestinationsStage_neh api _ node _))))

theorem lbSecurityGroups_neh (node : Node) (lb : LoadBalancerData) :
    ∀ (sgs : List String) (g : Graph) (acc : List String),
      newEdgesNonHeuristic g (lbSecurityGroups node lb sgs g acc).1 := by
  intro sgs
  induction sgs with
  | nil => intro g acc; exact neh_refl g
  | cons sg rest ih =>
      intro g acc
      unfold lbSecurityGroups
      exact neh_trans (neh_trans (neh_addNode g _) (neh_addEdge _ rfl)) (ih _ _)

theorem lbSubnets_neh (node : Node) :
    ∀ (azs : List AvailabilityZoneData) (g : Graph) (acc : List String),
      newEdgesNonHeuristic g (lbSubnets node azs g acc).1 := by
  intro azs
  induction azs with
  | nil => intro g acc; exact neh_refl g
  | cons subnet rest ih =>
      intro g acc
      unfold lbSubnets
      cases hs : subnet.subnetId with
      | none => exact ih g acc
      | some sid =>
          simp only [hs]
          exact neh_trans (neh_trans (neh_addNode g _) (neh_addEdge _ rfl)) (ih _ _)

theorem listenerTargetGroups_neh (api : ELBApi) (listenerNode : Node) :
    ∀ (actions : List (Option String)) (g : Graph) (acc : List String),
      newEdgesNonHeuristic g (listenerTargetGroups api listenerNode actions g acc).1 := by
  intro actions
  induction actions with
  | nil => intro g acc; exact neh_refl g
  | cons act rest ih =>
      intro g acc
      cases act with
      | none =>
          unfold listenerTargetGroups
          exact ih g acc
      | some tgARN =>
          unfold listenerTargetGroups
          cases hr : discoverTargetGroup api tgARN listenerNode g with
          | error e => simp only [hr]; exact ih g acc
          | ok r =>
              simp only [hr]
              exact neh_trans (discoverTargetGroup_neh api tgARN listenerNode g r hr) (ih _ _)

theorem listenerRules_neh (api : ELBApi) (listenerNode : Node) :
    ∀ (rules : List RuleData) (g : Graph) (acc : List String),
      newEdgesNonHeuristic g (listenerRules api listenerNode rules g acc).1 := by
  intro rules
  induction rules with
  | nil => intro g acc; exact neh_refl g
  | cons rule rest ih =>
      intro g acc
      unfold listenerRules
      split
      · exact ih g acc
      · exact neh_trans (listenerTargetGroups_neh api listenerNode rule.actions g acc) (ih _ _)

theorem discoverListenerRules_neh (elbv2 : ELBv2Api) (elb : ELBApi)
    (listenerArn : String) (listenerNode : Node) (g : Graph) (res : Graph × List String)
    (h : discoverListenerRules elbv2 elb listenerArn listenerNode g = .ok res) :
    newEdgesNonHeuristic g res.1 := by
  unfold discoverListenerRules at h
  cases hr : elbv2.describeRules listenerArn with
  | error e => rw [hr] at h; exact Except.noConfusion h
  | ok rules =>
      rw [hr] at h
      injection h with h2
      rw [← h2]
      exact listenerRules_neh elb listenerNode rules g []

theorem listenerRulesStage_neh (elbv2 : ELBv2Api) (elb : ELBApi)
    (listenerArn : String) (listenerNode : Node) (st : Graph × List String) :
    newEdgesNonHeuristic st.1 (listenerRulesStage elbv2 elb listenerArn listenerNode st).1 := by
  unfold listenerRulesStage
  cases hr : discoverListenerRules elbv2 elb listenerArn listenerNode st.1 with
  | error e => exact neh_refl st.1
  | ok r => exact discoverListenerRules_neh elbv2 elb listenerArn listenerNode st.1 r hr

theorem lbListeners_neh (elbv2 : ELBv2Api) (elb : ELBApi) (lbNode : Node) :
    ∀ (listeners : List ListenerData) (g : Graph) (acc : List String),
      newEdgesNonHeuristic g (lbListeners elbv2 elb lbNode listeners g acc).1 := by
  intro listeners
  induction listeners with
  | nil => intro g acc; exact neh_refl g
  | cons listener rest ih =>
      intro g acc
      unfold lbListeners
      exact neh_trans
        (neh_trans (neh_trans (neh_addNode g _) (neh_addEdge _ rfl))
          (neh_trans (listenerTargetGroups_neh elb _ listener.defaultActions _ _)
            (listenerRulesStage_neh elbv2 elb listener.listenerArn _ _)))
        (ih _ _)

theorem discoverListeners_neh (elbv2 : ELBv2Api) (elb : ELBApi) (lbNode : Node)
    (g : Graph) (res : Graph × List String)
    (h : discoverListeners elbv2 elb lbNode g = .ok res) :
    newEdgesNonHeuristic g res.1 := by
  unfold discoverListeners at h
  cases hl : elbv2.describeListeners lbNode.arn with
  | error e => rw [hl] at h; exact Except.noConfusion h
  | ok listeners =>
      rw [hl] at h
      injection h with h2
      rw [← h2]
      exact lbListeners_neh elbv2 elb lbNode listeners g []

theorem lbListenersStage_neh (elbv2 : ELBv2Api) (elb : ELBApi) (node : Node)
    (st : Graph × List String) :
    newEdgesNonHeuristic st.1 (lbListenersStage elbv2 elb node st).1 := by
  unfold lbListenersStage
  cases hr : discoverListeners elbv2 elb node st.1 with
  | error e => exact neh_refl st.1
  | ok r => exact discoverListeners_neh elbv2 elb node st.1 r hr

theorem lbRoute53Stage_neh (r53 : Route53Api) (lb : LoadBalancerData) (node : Node)
    (st : Graph × List String) :
    newEdgesNonHeuristic st.1 (lbRoute53Stage r53 lb node st).1 := by
  unfold lbRoute53Stage
  cases hd : lb.dnsName with
  | none => exact neh_refl st.1
  | some dns =>
      simp only [hd]
      cases hr : discoverRoute53Aliases r53 dns node st.1 with
      | error e => exact neh_refl st.1
      | ok r => exact discoverRoute53Aliases_neh r53 dns node st.1 r hr

/-- C7's load-balancer argument: a successful `discoverLoadBalancer` only
ever creates non-heuristic edges. -/
theorem discoverLoadBalancer_neh (elbv2 : ELBv2Api) (elb : ELBApi) (r53 : Route53Api)
    (node : Node) (g : Graph) (res : Graph × List String)
    (h : discoverLoadBalancer elbv2 elb r53 node g = .ok res) :
    newEdgesNonHeuristic g res.1 := by
  unfold discoverLoadBalancer at h
  cases hd : elbv2.describeLoadBalancers node.arn with
  | error e => rw [hd] at h; exact Except.noConfusion h
  | ok lbs =>
      rw [hd] at h
      cases lbs with
      | nil => exact Except.noConfusion h
      | cons lb _ =>
          dsimp only at h
          injection h with h2
          rw [← h2]
          exact neh_trans (lbSecurityGroups_neh node lb lb.securityGroups _ _)
            (neh_trans (lbSubnets_neh node lb.availabilityZones _ _)
              (neh_trans (lbListenersStage_neh elbv2 elb node _)
                (lbRoute53Stage_neh r53 lb node _)))

/-- C7's RDS argument at the dispatch level: a successful `discoverRDS`
only ever creates non-heuristic edges. -/
theorem discoverRDSDispatch_neh (api : RDSApi) (opts : Options) (node : Node)
    (g : Graph) (res : Graph × List String)
    (h : discoverRDSDispatch api opts node g = .ok res) :
    newEdgesNonHeuristic g res.1 := by
  unfold discoverRDSDispatch at h
  split at h
  · exact discoverRDSInstance_neh api opts node g res h
  · split at h
    · exact discoverRDSCluster_neh api opts node g res h
    · exact Except.noConfusion h

/-- The dispatch preserves the non-heuristic property when the four
expanders do. -/
theorem discoverNode_neh (e : Expanders)
    (h1 : ∀ n g, newEdgesNonHeuristic g (e.discoverLoadBalancer n g).1)
    (h2 : ∀ n g, newEdgesNonHeuristic g (e.discoverECSService n g).1)
    (h3 : ∀ n g, newEdgesNonHeuristic g (e.discoverLambda n g).1)
    (h4 : ∀ n g, newEdgesNonHeuristic g (e.discoverRDS n g).1) :
    ∀ n g, newEdgesNonHeuristic g (discoverNode e n g).1 := by
  intro n g
  unfold discoverNode
  split
  · exact h1 n g
  · split
    · exact h2 n g
    · split
      · exact h3 n g
      · split
        · exact h4 n g
        · exact neh_refl g

theorem runLevel_neh (ex : Expander)
    (hex : ∀ n g, newEdgesNonHeuristic g (ex n g).1) (maxNodes : Int) :
    ∀ (fuel : Nat) (g : Graph) (q v : List String),
      newEdgesNonHeuristic g (runLevel ex maxNodes fuel g q v).1 := by
  intro fuel
  induction fuel with
  | zero => intro g q v; exact neh_refl g
  | succ f ih =>
      intro g q v
      unfold runLevel
      split
      · exact neh_refl g
      · cases q with
        | nil => exact neh_refl g
        | cons nid rest =>
            dsimp only
            cases hg : g.getNode nid with
            | none => simp only [hg]; exact ih g rest v
            | some node =>
                simp only [hg]
                exact neh_trans (hex node g) (ih _ _ _)

theorem discoverLoop_neh (ex : Expander)
    (hex : ∀ n g, newEdgesNonHeuristic g (ex n g).1) (maxNodes : Int) :
    ∀ (fuel : Nat) (g : Graph) (q v : List String),
      newEdgesNonHeuristic g (discoverLoop ex maxNodes fuel g q v) := by
  intro fuel
  induction fuel with
  | zero => intro g q v; exact neh_refl g
  | succ f ih =>
      intro g q v
      unfold discoverLoop
      split
      · exact neh_refl g
      · dsimp only
        split
        · exact runLevel_neh ex hex maxNodes _ g q v
        · exact neh_trans (runLevel_neh ex hex maxNodes _ g q v) (ih _ _ _)

/-- The Discover-level conclusion: when every expander in the table only
creates non-heuristic edges, a run from the fresh graph yields only
heuristic = false edges. -/
theorem Discover_nonheuristic (e : Expanders) (r : Resolvers) (opts : Options)
    (rid : String) (gOut : Graph)
    (hex : ∀ n g, newEdgesNonHeuristic g (discoverNode e n g).1)
    (h : Discover e r opts rid Graph.new = .ok gOut) :
    ∀ edge ∈ gOut.edges, edge.evidence.heuristic = false := by
  intro edge hmem
  unfold Discover at h
  cases hid : identifyResource r rid with
  | error err => rw [hid] at h; exact Except.noConfusion h
  | ok startNode =>
      rw [hid] at h
      dsimp only at h
      injection h with h2
      rw [← h2] at hmem
      have hneh : newEdgesNonHeuristic Graph.new
          (discoverLoop (discoverNode e) opts.maxNodes ((opts.maxDepth + 1).toNat)
            (Graph.new.addNode startNode) [startNode.id] [startNode.id]) :=
        neh_trans (neh_addNode Graph.new startNode)
          (discoverLoop_neh (discoverNode e) hex opts.maxNodes _ _ _ _)
      rcases hneh edge hmem with hold | hfree
      · exact absurd hold (List.not_mem_nil edge)
      · exact hfree

/-- The shipped expander table satisfies the non-heuristic contract: each
wrapped expander either fails (graph untouched) or succeeds having created
only non-heuristic edges. -/
theorem shippedExpanders_neh (apis : AWSApis) (opts : Options) :
    ∀ n g, newEdgesNonHeuristic g (discoverNode (shippedExpanders apis opts) n g).1 := by
  apply discoverNode_neh
  · intro n g
    unfold shippedExpanders
    dsimp only
    cases hr : discoverLoadBalancer apis.elbv2 apis.elb apis.route53 n g with
    | error e => exact neh_refl g
    | ok r => exact discoverLoadBalancer_neh apis.elbv2 apis.elb apis.route53 n g r hr
  · intro n g
    unfold shippedExpanders
    dsimp only
    cases hr : discoverECSService apis.ecs n g with
    | error e => exact neh_refl g
    | ok r => exact discoverECSService_neh apis.ecs n g r hr
  · intro n g
    unfold shippedExpanders
    dsimp only
    cases hr : discoverLambda apis.lam n g with
    | error e => exact neh_refl g
    | ok r => exact discoverLambda_neh apis.lam n g r hr
  · intro n g
    unfold shippedExpanders
    dsimp only
    cases hr : discoverRDSDispatch apis.rds opts n g with
    | error e => exact neh_refl g
    | ok r => exact discoverRDSDispatch_neh apis.rds opts n g r hr

/-- C7: every edge created by any expander outside the heuristic resolver
— load balancer, ECS service, Lambda, RDS (and the target-group and
Route53 helpers they recurse into) — carries heuristic = false (each
clause: an edge of the result graph was already present or is
non-heuristic); the heuristic resolver itself (the shipped stub) creates
no edges at all, so all its edges vacuously carry heuristic = true; it is
never invoked unless the `rds-endpoint` token is in the configured
heuristics (the expanders' results are independent of the resolver when
the gate is off, and an empty heuristics set turns the gate off);
consequently a Discover run over any expander table satisfying the
non-heuristic contract — the shipped table in particular, so every run
with an empty heuristics set — yields a final graph whose every edge has
heuristic = false. -/
theorem C7_heuristic_flag :
    (∀ (elbv2 : ELBv2Api) (elb : ELBApi) (r53 : Route53Api) (node : Node) (g : Graph)
        (res : Graph × List String),
        discoverLoadBalancer elbv2 elb r53 node g = .ok res →
        ∀ e ∈ res.1.edges, e ∈ g.edges ∨ e.evidence.heuristic = false)
    ∧ (∀ (api : ECSApi) (node : Node) (g : Graph) (res : Graph × List String),
        discoverECSService api node g = .ok res →
        ∀ e ∈ res.1.edges, e ∈ g.edges ∨ e.evidence.heuristic = false)
    ∧ (∀ (api : LambdaApi) (node : Node) (g : Graph) (res : Graph × List String),
        discoverLambda api node g = .ok res →
        ∀ e ∈ res.1.edges, e ∈ g.edges ∨ e.evidence.heuristic = false)
    ∧ (∀ (api : RDSApi) (opts : Options) (node : Node) (g : Graph) (res : Graph × List String),
        discoverRDSDispatch api opts node g = .ok res →
        ∀ e ∈ res.1.edges, e ∈ g.edges ∨ e.evidence.heuristic = false)
    ∧ (∀ (api : ELBApi) (tgARN : String) (src : Node) (g : Graph) (res : Graph × List String),
        discoverTargetGroup api tgARN src g = .ok res →
        ∀ e ∈ res.1.edges, e ∈ g.edges ∨ e.evidence.heuristic = false)
    ∧ (∀ (api : Route53Api) (dnsName : String) (tgt : Node) (g : Graph)
          (res : Graph × List String),
        discoverRoute53Aliases api dnsName tgt g = .ok res →
        ∀ e ∈ res.1.edges, e ∈ g.edges ∨ e.evidence.heuristic = false)
    ∧ (∀ (endpoint : String) (n : Node) (g : Graph),
        discoverRDSUpstream endpoint n g = .ok (g, []))
    ∧ (∀ (u1 u2 : UpstreamFn) (api : RDSApi) (opts : Options) (node : Node) (g : Graph),
        hasHeuristic opts "rds-endpoint" = false →
        discoverRDSInstanceWith u1 api opts node g = discoverRDSInstanceWith u2 api opts node g)
    ∧ (∀ (u1 u2 : UpstreamFn) (api : RDSApi) (opts : Options) (node : Node) (g : Graph),
        hasHeuristic opts "rds-endpoint" = false →
        discoverRDSClusterWith u1 api opts node g = discoverRDSClusterWith u2 api opts node g)
    ∧ (∀ opts : Options, opts.heuristics = [] → hasHeuristic opts "rds-endpoint" = false)
    ∧ (∀ (e : Expanders) (r : Resolvers) (opts : Options) (rid : String) (gOut : Graph),
        (∀ n g, newEdgesNonHeuristic g (discoverNode e n g).1) →
        Discover e r opts rid Graph.new = .ok gOut →
        ∀ edge ∈ gOut.edges, edge.evidence.heuristic = false)
    ∧ (∀ (apis : AWSApis) (r : Resolvers) (opts : Options) (rid : String) (gOut : Graph),
        opts.heuristics = [] →
        Discover (shippedExpanders apis opts) r opts rid Graph.new = .ok gOut →
        ∀ edge ∈ gOut.edges, edge.evidence.heuristic = false) :=
  ⟨discoverLoadBalancer_neh, discoverECSService_neh, discoverLambda_neh,
   discoverRDSDispatch_neh, discoverTargetGroup_neh, discoverRoute53Aliases_neh,
   fun _ _ _ => rfl,
   discoverRDSInstanceWith_gate, discoverRDSClusterWith_gate,
   fun opts h => by simp [hasHeuristic, h],
   Discover_nonheuristic,
   fun apis r opts rid gOut _ h =>
     Discover_nonheuristic (shippedExpanders apis opts) r opts rid gOut
       (shippedExpanders_neh apis opts) h⟩

/-- Empty-heuristics options for the C7 witness run. -/
def c7Opts : Options := { maxDepth := 2, maxNodes := 250, heuristics := [] }

/-- The clients bundle of the C7 witness: RDS answers with the concrete
instance of `c7Api`; every other service errors (exercising the
warn-and-continue paths). -/
def c7Apis : AWSApis where
  elb := { describeTargetGroups := fun _ => .error "unused",
           describeTargetHealth := fun _ => .error "unused" }
  elbv2 := { describeLoadBalancers := fun _ => .error "unused",
             describeListeners := fun _ => .error "unused",
             describeRules := fun _ => .error "unused" }
  route53 := { listHostedZones := .error "unused",
               listResourceRecordSets := fun _ => .error "unused" }
  ecs := { describeServices := fun _ _ => .error "unused",
           describeTaskDefinition := fun _ => .error "unused",
           describeScalableTargets := fun _ => .error "unused",
           describeScalingPolicies := fun _ => .error "unused" }
  lam := { getFunction := fun _ => .error "unused",
           listEventSourceMappings := fun _ => .error "unused",
           getFunctionEventInvokeConfig := fun _ => .error "unused" }
  rds := c7Api

/-- Witness for C7 at a full concrete run: Discover over the shipped
expanders with empty heuristics, from an RDS instance ARN, succeeds and
every edge of the final graph carries heuristic = false. -/
theorem C7_heuristic_flag_witness :
    ((Discover (shippedExpanders c7Apis c7Opts) failResolvers c7Opts
        "arn:aws:rds:us-east-1:123456789012:db:my-database" Graph.new).toOption.map
          (fun gOut => gOut.edges.all (fun e => !e.evidence.heuristic))) = some true := by
  cases hr : Discover (shippedExpanders c7Apis c7Opts) failResolvers c7Opts
      "arn:aws:rds:us-east-1:123456789012:db:my-database" Graph.new with
  | error e =>
      have hok : (Discover (shippedExpanders c7Apis c7Opts) failResolvers c7Opts
          "arn:aws:rds:us-east-1:123456789012:db:my-database" Graph.new).isOk = true := by
        rfl
      rw [hr] at hok
      exact absurd hok (by simp [Except.isOk, Except.toBool])
  | ok gOut =>
      have hall := C7_heuristic_flag.2.2.2.2.2.2.2.2.2.2.2 c7Apis failResolvers c7Opts
        "arn:aws:rds:us-east-1:123456789012:db:my-database" gOut rfl hr
      simp only [hr, Except.toOption]
      show some (gOut.edges.all fun e => !e.evidence.heuristic) = some true
      rw [Option.some_inj, List.all_eq_true]
      intro e he
      simp [hall e he]

end BlastRadius
